import Mathlib

/-!
Shallow embedding of the authentication/session core of the
KotobaMichi backend (`src/auth/auth.service.ts` over the tables of
`src/db/schema.ts`), together with theorems settling the frozen claims
about it.

Modelling conventions:
* The relational store is a `Db` structure of four lists (one per table);
  a SQL `UPDATE ... WHERE p` is a `List.map` that rewrites exactly the
  rows satisfying `p`, an `INSERT` is an append, a `SELECT ... LIMIT 1`
  is `List.find?`.  A database transaction is a single step of the model
  (the ambient semantics is sequential, one request at a time).
* Cryptography is symbolic and perfect: a bcrypt hash is the constructor
  `BHash.bcrypt pw cost` and `bcryptCompare` succeeds exactly on the
  hashed password; a SHA-256 digest is the constructor `Digest.sha256`
  (of a raw secret string) or `Digest.sha256Jwt` (of a signed token), so
  digests of distinct inputs are distinct.  `timingSafeEqual` of two hex
  digests is digest equality.
* A signed JWT is a `Jwt` value carrying its payload, a signature-valid
  flag and its expiry instant in epoch milliseconds; `jwtVerify` models
  `jwtService.verifyAsync` (payload only when the signature is valid and
  the token unexpired), `jwtDecode` models `jwtService.decode` (payload
  regardless of the signature).
* Wall-clock time, generated ids (uuidv7), fresh jtis and fresh raw
  secrets are nondeterministic in the source; they are explicit
  parameters of each operation here.
* The email transport is external; the model takes the send to succeed
  (its failure happens after every database write of the operation, so
  no claim distinguishes the two).
* Express response effects are reified: `cookiesCleared` records a call
  to `clearAuthCookies` (which clears both the `access_token` and the
  `refresh_token` cookie), and `login` additionally counts the bcrypt
  comparisons it performed.
-/

namespace KotobaMichi

/-- Role enum of the `users` table (`userRoleEnum` in `schema.ts`). -/
inductive Role where
  | USER
  | ADMIN
deriving DecidableEq, Repr

/-- Payload of a signed JWT as built by `signAccessToken` /
`signRefreshToken`; the constructor tag models the `type` claim
(`'access'` / `'refresh'`). -/
inductive Payload where
  | accessPayload (email : String) (sub : String) (role : Role)
  | refreshPayload (sub : String) (jti : String)
deriving DecidableEq, Repr

/-- A JSON web token: its decodable payload (none when structurally
undecodable), whether its signature verifies, and its `exp` instant in
epoch milliseconds. -/
structure Jwt where
  payload : Option Payload
  sigValid : Bool
  expMs : Int
deriving DecidableEq, Repr

/-- Model of `jwtService.verifyAsync`: the payload, provided the signature is
valid and the token is unexpired. -/
def jwtVerify (now : Int) (j : Jwt) : Option Payload :=
  if j.sigValid && decide (now < j.expMs) then j.payload else none

/-- Model of `jwtService.decode`: the payload without any verification. -/
def jwtDecode (j : Jwt) : Option Payload :=
  j.payload

/-- A bcrypt password hash, symbolic: `bcrypt.hash pw cost`. -/
inductive BHash where
  | bcrypt (pw : String) (cost : Nat)
deriving DecidableEq, Repr

/-- Model of `bcrypt.compare(password, storedHash)` in the perfect-hash model. -/
def bcryptCompare (pw : String) (h : BHash) : Bool :=
  match h with
  | .bcrypt p _ => p == pw

/-- A SHA-256 hex digest, symbolic; `sha256` digests a raw secret
string (verification/reset links), `sha256Jwt` digests the string form
of a signed token (refresh tokens). -/
inductive Digest where
  | sha256 (preimage : String)
  | sha256Jwt (tok : Jwt)
deriving DecidableEq, Repr

/-- Model of `hashToken` of the service, applied to a raw secret string. -/
def hashToken (t : String) : Digest :=
  Digest.sha256 t

/-- Model of `hashToken` of the service, applied to a signed token. -/
def hashJwt (j : Jwt) : Digest :=
  Digest.sha256Jwt j

/-- Row of the `users` table. -/
structure UserRec where
  id : String
  email : String
  password : BHash
  role : Role
  isEmailVerified : Bool
  createdAt : Int
deriving DecidableEq, Repr

/-- Row of the `refresh_tokens` table. -/
structure RefreshTokenRec where
  id : String
  jti : String
  userId : String
  tokenHash : Digest
  expiresAt : Int
  revokedAt : Option Int
  replacedById : Option String
  createdAt : Int
deriving DecidableEq, Repr

/-- Row of the `email_verification_tokens` / `password_reset_tokens`
tables (identical shape). -/
structure OtpTokenRec where
  id : String
  userId : String
  tokenHash : Digest
  expiresAt : Int
  usedAt : Option Int
  createdAt : Int
deriving DecidableEq, Repr

/-- The four tables the auth core touches. -/
structure Db where
  users : List UserRec
  refreshTokens : List RefreshTokenRec
  emailVerificationTokens : List OtpTokenRec
  passwordResetTokens : List OtpTokenRec
deriving DecidableEq, Repr

/-- JavaScript `a || b` on an optional environment string: the default
applies when the variable is unset or the empty string (falsy). -/
def jsOr (o : Option String) (d : String) : String :=
  match o with
  | some v => if v = "" then d else v
  | none => d

/-- Model of `String.toLowerCase` over the characters of the string (the
config values concerned are ASCII). -/
def lowerStr (s : String) : String :=
  ⟨s.data.map Char.toLower⟩

/-- Environment variables read by `getCookieOptions`. -/
structure CookieEnv where
  nodeEnv : Option String
  cookieSecure : Option String
  cookieSameSite : Option String
deriving DecidableEq, Repr

/-- Options record built by `getCookieOptions`. -/
structure CookieOptions where
  httpOnly : Bool
  secure : Bool
  sameSite : String
  path : String
deriving DecidableEq, Repr

/-- Model of `getCookieOptions`: `secure` is forced by `NODE_ENV=production` or
`COOKIE_SECURE=true`; `sameSite` is the override when set, else
`'none'` when secure and `'lax'` otherwise. -/
def getCookieOptions (env : CookieEnv) : CookieOptions :=
  let isProd : Bool := lowerStr (jsOr env.nodeEnv "") == "production"
  let secure : Bool := (lowerStr (jsOr env.cookieSecure "") == "true") || isProd
  let sameSiteEnv := jsOr env.cookieSameSite (if secure then "none" else "lax")
  { httpOnly := true, secure := secure, sameSite := sameSiteEnv, path := "/" }

/-- Configuration surface read through `ConfigService`; numeric limits
are already parsed (their parsing is outside every claim). -/
structure Config where
  accessTokenExpiresIn : Option String
  refreshTokenExpiresIn : Option String
  emailVerificationExpiresIn : Option String
  passwordResetExpiresIn : Option String
  emailVerificationCooldownSeconds : Option Nat
  emailVerificationDailyLimit : Option Nat
  passwordResetCooldownSeconds : Option Nat
  passwordResetDailyLimit : Option Nat
deriving Repr

def accessTokenTTL (cfg : Config) : String :=
  cfg.accessTokenExpiresIn.getD "15m"

def refreshTokenTTL (cfg : Config) : String :=
  cfg.refreshTokenExpiresIn.getD "7d"

def verificationTokenTTL (cfg : Config) : String :=
  cfg.emailVerificationExpiresIn.getD "1d"

def passwordResetTTL (cfg : Config) : String :=
  cfg.passwordResetExpiresIn.getD "1h"

/-- Value of a digit string under `parseInt(_, 10)`. -/
def digitsToNat (ds : List Char) : Nat :=
  ds.foldl (fun n c => n * 10 + (c.toNat - 48)) 0

/-- Whether a character is one of the unit suffixes `s|m|h|d`,
case-insensitively (the regex carries the `i` flag). -/
def isUnitChar (c : Char) : Bool :=
  c.toLower == 's' || c.toLower == 'm' || c.toLower == 'h' || c.toLower == 'd'

/-- Model of `parseTTLToMs`: a string matching `^(\d+)(s|m|h|d)$/i` maps to the
corresponding duration in milliseconds; anything else maps to `0`
(browser session cookie). -/
def parseTTLToMs (ttl : String) : Nat :=
  let cs := ttl.toList
  match cs.getLast? with
  | none => 0
  | some u =>
    let ds := cs.dropLast
    if ds ≠ [] ∧ (∀ c ∈ ds, c.isDigit) ∧ isUnitChar u then
      let value := digitsToNat ds
      if u.toLower == 's' then value * 1000
      else if u.toLower == 'm' then value * 60 * 1000
      else if u.toLower == 'h' then value * 60 * 60 * 1000
      else value * 24 * 60 * 60 * 1000
    else 0

/-- One `res.cookie(name, value, opts)` call of `setAuthCookies`. -/
structure SetCookie where
  cookieName : String
  options : CookieOptions
  maxAge : Nat
deriving DecidableEq, Repr

/-- Model of `setAuthCookies`: both tokens are set with the shared cookie
options, `maxAge` from the respective TTL. -/
def setAuthCookies (env : CookieEnv) (cfg : Config) : List SetCookie :=
  let opts := getCookieOptions env
  [ { cookieName := "access_token", options := opts,
      maxAge := parseTTLToMs (accessTokenTTL cfg) },
    { cookieName := "refresh_token", options := opts,
      maxAge := parseTTLToMs (refreshTokenTTL cfg) } ]

/-- Error taxonomy surfaced by the service. -/
inductive AuthError where
  | unauthorized (msg : String)
  | conflict (msg : String)
  | tooManyRequests (msg : String)
deriving DecidableEq, Repr

/-- Public user view returned by token-issuing operations. -/
structure PublicUser where
  id : String
  email : String
  role : Role
deriving DecidableEq, Repr

/-- Success payload of `login` / `registerAdmin` / `refreshFromCookies`. -/
structure AuthTokens where
  access_token : Jwt
  refresh_token : Jwt
  user : PublicUser
deriving DecidableEq, Repr

def getUserByEmail (db : Db) (email : String) : Option UserRec :=
  db.users.find? (fun u => u.email == email)

def getUserById (db : Db) (id : String) : Option UserRec :=
  db.users.find? (fun u => u.id == id)

def getRefreshTokenByJti (db : Db) (jti : String) : Option RefreshTokenRec :=
  db.refreshTokens.find? (fun r => r.jti == jti)

def getEmailVerificationTokenByHash (db : Db) (h : Digest) : Option OtpTokenRec :=
  db.emailVerificationTokens.find? (fun t => t.tokenHash == h)

def getPasswordResetTokenByHash (db : Db) (h : Digest) : Option OtpTokenRec :=
  db.passwordResetTokens.find? (fun t => t.tokenHash == h)

/-- Model of `signAccessToken`: claims email, sub, role, type `'access'`. -/
def signAccessToken (cfg : Config) (u : UserRec) (now : Int) : Jwt :=
  { payload := some (.accessPayload u.email u.id u.role),
    sigValid := true,
    expMs := now + (parseTTLToMs (accessTokenTTL cfg) : Int) }

/-- Model of `signRefreshToken`: claims sub, the fresh jti, type `'refresh'`. -/
def signRefreshToken (cfg : Config) (userId jti : String) (now : Int) : Jwt :=
  { payload := some (.refreshPayload userId jti),
    sigValid := true,
    expMs := now + (parseTTLToMs (refreshTokenTTL cfg) : Int) }

/-- Refresh-token row persisted alongside a freshly signed refresh
token (`login`, `registerAdmin`, rotation in `refreshFromCookies`). -/
def newRefreshTokenRec (cfg : Config) (id jti userId : String) (tok : Jwt)
    (now : Int) : RefreshTokenRec :=
  { id := id, jti := jti, userId := userId, tokenHash := hashJwt tok,
    expiresAt := now + (parseTTLToMs (refreshTokenTTL cfg) : Int),
    revokedAt := none, replacedById := none, createdAt := now }

/-- Model of `revokeAllUserRefreshTokens`: set `revokedAt` on every refresh
token of the user whose `revokedAt` is still null. -/
def revokeAllUserRefreshTokens (db : Db) (userId : String) (now : Int) : Db :=
  { db with
    refreshTokens := db.refreshTokens.map (fun r =>
      if r.userId = userId ∧ r.revokedAt = none then
        { r with revokedAt := some now } else r) }

/-- Model of `revokeRefreshTokenFamily`: look the jti up; when a row exists,
revoke every refresh token of its owning user. -/
def revokeRefreshTokenFamily (db : Db) (jti : String) (now : Int) : Db :=
  match getRefreshTokenByJti db jti with
  | none => db
  | some r => revokeAllUserRefreshTokens db r.userId now

/-- Model of `issueAndSendEmailVerification`: mark the user's unused prior
verification tokens used, then insert the new row keyed by the digest
of the fresh raw secret (the email send is external and modelled as
succeeding). -/
def issueAndSendEmailVerification (cfg : Config) (db : Db) (userId : String)
    (now : Int) (newId raw : String) : Db :=
  let marked := db.emailVerificationTokens.map (fun t =>
    if t.userId = userId ∧ t.usedAt = none then { t with usedAt := some now } else t)
  let r : OtpTokenRec :=
    { id := newId, userId := userId, tokenHash := hashToken raw,
      expiresAt := now + (parseTTLToMs (verificationTokenTTL cfg) : Int),
      usedAt := none, createdAt := now }
  { db with emailVerificationTokens := marked ++ [r] }

def verificationCooldownSeconds (cfg : Config) : Nat :=
  cfg.emailVerificationCooldownSeconds.getD 60

def verificationDailyLimit (cfg : Config) : Nat :=
  max 1 (cfg.emailVerificationDailyLimit.getD 10)

def resetCooldownSeconds (cfg : Config) : Nat :=
  cfg.passwordResetCooldownSeconds.getD 60

def resetDailyLimit (cfg : Config) : Nat :=
  max 1 (cfg.passwordResetDailyLimit.getD 10)

/-- Model of `createdAt` of the user's most recent token of one kind
(`orderBy desc createdAt limit 1`). -/
def latestCreatedAt (toks : List OtpTokenRec) (userId : String) : Option Int :=
  (toks.filter (fun t => t.userId = userId)).foldl
    (fun acc t =>
      match acc with
      | none => some t.createdAt
      | some m => some (max m t.createdAt))
    none

/-- Number of the user's tokens created within the trailing 24 hours. -/
def dailyCount (toks : List OtpTokenRec) (userId : String) (now : Int) : Nat :=
  (toks.filter (fun t => t.userId = userId ∧ now - 86400000 ≤ t.createdAt)).length

/-- Model of `enforceVerificationRateLimit`: cooldown window, then rolling daily
cap; `some e` models the thrown 429. -/
def enforceVerificationRateLimit (cfg : Config) (db : Db) (userId : String)
    (now : Int) : Option AuthError :=
  let cooldownMs : Int := (verificationCooldownSeconds cfg : Int) * 1000
  let cooldownHit :=
    match latestCreatedAt db.emailVerificationTokens userId with
    | some last => decide (now - last < cooldownMs)
    | none => false
  if cooldownHit then
    some (.tooManyRequests "Please wait before requesting another verification email.")
  else if verificationDailyLimit cfg ≤ dailyCount db.emailVerificationTokens userId now then
    some (.tooManyRequests "Daily limit for verification emails reached. Try again later.")
  else none

/-- Model of `enforcePasswordResetRateLimit`, same policy over the reset table. -/
def enforcePasswordResetRateLimit (cfg : Config) (db : Db) (userId : String)
    (now : Int) : Option AuthError :=
  let cooldownMs : Int := (resetCooldownSeconds cfg : Int) * 1000
  let cooldownHit :=
    match latestCreatedAt db.passwordResetTokens userId with
    | some last => decide (now - last < cooldownMs)
    | none => false
  if cooldownHit then
    some (.tooManyRequests "Please wait before requesting another password reset email.")
  else if resetDailyLimit cfg ≤ dailyCount db.passwordResetTokens userId now then
    some (.tooManyRequests "Daily limit for password reset emails reached. Try again later.")
  else none

/-- Model of `register`: conflict on an existing email; otherwise create the
USER row (unverified) and issue+send a verification token.  Returns a
message only — no tokens. -/
def register (cfg : Config) (db : Db) (email pw : String) (now : Int)
    (newUserId newTokId raw : String) : Except AuthError Unit × Db :=
  match getUserByEmail db email with
  | some _ => (.error (.conflict "User with this email already exists"), db)
  | none =>
    let u : UserRec :=
      { id := newUserId, email := email, password := BHash.bcrypt pw 10,
        role := .USER, isEmailVerified := false, createdAt := now }
    let db1 : Db := { db with users := db.users ++ [u] }
    (.ok (), issueAndSendEmailVerification cfg db1 newUserId now newTokId raw)

/-- Model of `registerAdmin`: conflict on an existing email; otherwise create
the ADMIN row and immediately issue access+refresh tokens, persisting
the refresh row.  No `isEmailVerified` value is supplied, so the
schema default `false` applies, and no verification token is issued. -/
def registerAdmin (cfg : Config) (db : Db) (email pw : String) (now : Int)
    (newUserId newRtId newJti : String) : Except AuthError AuthTokens × Db :=
  match getUserByEmail db email with
  | some _ => (.error (.conflict "User with this email already exists"), db)
  | none =>
    let u : UserRec :=
      { id := newUserId, email := email, password := BHash.bcrypt pw 10,
        role := .ADMIN, isEmailVerified := false, createdAt := now }
    let access := signAccessToken cfg u now
    let refresh := signRefreshToken cfg u.id newJti now
    let rt := newRefreshTokenRec cfg newRtId newJti u.id refresh now
    (.ok { access_token := access, refresh_token := refresh,
           user := { id := u.id, email := u.email, role := u.role } },
     { db with users := db.users ++ [u], refreshTokens := db.refreshTokens ++ [rt] })

/-- Outcome of `login`; `bcryptCompares` counts the password
comparisons performed along the taken path. -/
structure LoginOutcome where
  result : Except AuthError AuthTokens
  db : Db
  bcryptCompares : Nat
deriving Repr

/-- Model of `login`: absent user → `Unauthorized` (thrown before any password
comparison); then the bcrypt compare; then the verified-email gate; on
success sign both tokens and persist the refresh row. -/
def login (cfg : Config) (db : Db) (email pw : String) (now : Int)
    (newRtId newJti : String) : LoginOutcome :=
  match getUserByEmail db email with
  | none => { result := .error (.unauthorized "Invalid credentials"), db := db, bcryptCompares := 0 }
  | some u =>
    if bcryptCompare pw u.password = false then
      { result := .error (.unauthorized "Invalid credentials"), db := db, bcryptCompares := 1 }
    else if u.isEmailVerified = false then
      { result := .error (.unauthorized "Email not verified"), db := db, bcryptCompares := 1 }
    else
      let access := signAccessToken cfg u now
      let refresh := signRefreshToken cfg u.id newJti now
      let rt := newRefreshTokenRec cfg newRtId newJti u.id refresh now
      { result := .ok { access_token := access, refresh_token := refresh,
                        user := { id := u.id, email := u.email, role := u.role } },
        db := { db with refreshTokens := db.refreshTokens ++ [rt] },
        bcryptCompares := 1 }

/-- Model of `verifyEmail`: look the digest up; absent / used / expired →
`Unauthorized` with no write; else one transaction sets the user's
`isEmailVerified` and the token's `usedAt`. -/
def verifyEmail (db : Db) (token : String) (now : Int) :
    Except AuthError Unit × Db :=
  let h := hashToken token
  match getEmailVerificationTokenByHash db h with
  | none => (.error (.unauthorized "Invalid or expired token"), db)
  | some r =>
    if r.usedAt ≠ none ∨ r.expiresAt < now then
      (.error (.unauthorized "Invalid or expired token"), db)
    else
      (.ok (),
       { db with
         users := db.users.map (fun u =>
           if u.id = r.userId then { u with isEmailVerified := true } else u),
         emailVerificationTokens := db.emailVerificationTokens.map (fun t =>
           if t.tokenHash = h then { t with usedAt := some now } else t) })

/-- Model of `resendVerification`: non-enumerating no-op when the user is absent
or already verified; rate limit; then issue+send. -/
def resendVerification (cfg : Config) (db : Db) (email : String) (now : Int)
    (newTokId raw : String) : Except AuthError Unit × Db :=
  match getUserByEmail db email with
  | none => (.ok (), db)
  | some u =>
    if u.isEmailVerified then (.ok (), db)
    else
      match enforceVerificationRateLimit cfg db u.id now with
      | some e => (.error e, db)
      | none => (.ok (), issueAndSendEmailVerification cfg db u.id now newTokId raw)

/-- Model of `forgotPassword`: non-enumerating no-op when the user is absent;
rate limit; mark the user's unused prior reset tokens used; insert the
new reset row. -/
def forgotPassword (cfg : Config) (db : Db) (email : String) (now : Int)
    (newTokId raw : String) : Except AuthError Unit × Db :=
  match getUserByEmail db email with
  | none => (.ok (), db)
  | some u =>
    match enforcePasswordResetRateLimit cfg db u.id now with
    | some e => (.error e, db)
    | none =>
      let marked := db.passwordResetTokens.map (fun t =>
        if t.userId = u.id ∧ t.usedAt = none then { t with usedAt := some now } else t)
      let r : OtpTokenRec :=
        { id := newTokId, userId := u.id, tokenHash := hashToken raw,
          expiresAt := now + (parseTTLToMs (passwordResetTTL cfg) : Int),
          usedAt := none, createdAt := now }
      (.ok (), { db with passwordResetTokens := marked ++ [r] })

/-- Model of `resetPassword`: look the digest up; absent / used / expired →
`Unauthorized` with no write; else one transaction stores the bcrypt
hash of the new password, sets the token's `usedAt`, and revokes every
unrevoked refresh token of the owning user. -/
def resetPassword (db : Db) (token newPassword : String) (now : Int) :
    Except AuthError Unit × Db :=
  let h := hashToken token
  match getPasswordResetTokenByHash db h with
  | none => (.error (.unauthorized "Invalid or expired token"), db)
  | some r =>
    if r.usedAt ≠ none ∨ r.expiresAt < now then
      (.error (.unauthorized "Invalid or expired token"), db)
    else
      (.ok (),
       { db with
         users := db.users.map (fun u =>
           if u.id = r.userId then { u with password := BHash.bcrypt newPassword 10 } else u),
         passwordResetTokens := db.passwordResetTokens.map (fun t =>
           if t.tokenHash = h then { t with usedAt := some now } else t),
         refreshTokens := db.refreshTokens.map (fun rt =>
           if rt.userId = r.userId ∧ rt.revokedAt = none then
             { rt with revokedAt := some now } else rt) })

/-- Model of `changePassword`: absent user or wrong current password →
`Unauthorized`; else one transaction updates the hash and revokes all
the user's refresh tokens. -/
def changePassword (db : Db) (userId currentPassword newPassword : String)
    (now : Int) : Except AuthError Unit × Db :=
  match getUserById db userId with
  | none => (.error (.unauthorized "User not found"), db)
  | some u =>
    if bcryptCompare currentPassword u.password = false then
      (.error (.unauthorized "Current password incorrect"), db)
    else
      (.ok (),
       { db with
         users := db.users.map (fun w =>
           if w.id = userId then { w with password := BHash.bcrypt newPassword 10 } else w),
         refreshTokens := db.refreshTokens.map (fun rt =>
           if rt.userId = userId ∧ rt.revokedAt = none then
             { rt with revokedAt := some now } else rt) })

/-- Outcome of `refreshFromCookies`; `cookiesCleared` records a
`clearAuthCookies` call (both cookies). -/
structure RefreshOutcome where
  result : Except AuthError AuthTokens
  db : Db
  cookiesCleared : Bool
deriving Repr

/-- Model of `refreshFromCookies` on a present request: missing cookie →
`Unauthorized` (no clearing); failed verification → best-effort decode,
family revocation when a jti is recoverable, clear cookies, fail;
wrong payload shape → clear, fail; absent user → family revocation,
clear, fail; record absent / revoked / hash mismatch / expired →
revoke all the user's tokens (reuse detection), clear, fail; else
rotate inside one transaction (insert the new row, then set
`revokedAt` and `replacedById` on the row with the presented jti). -/
def refreshFromCookies (cfg : Config) (db : Db) (cookie : Option Jwt)
    (now : Int) (newRtId newJti : String) : RefreshOutcome :=
  match cookie with
  | none =>
    { result := .error (.unauthorized "Refresh token missing"), db := db,
      cookiesCleared := false }
  | some token =>
    match jwtVerify now token with
    | none =>
      let db1 :=
        match jwtDecode token with
        | some (.refreshPayload _ jti) =>
          if jti = "" then db else revokeRefreshTokenFamily db jti now
        | some (.accessPayload _ _ _) => db
        | none => db
      { result := .error (.unauthorized "Invalid refresh token"), db := db1,
        cookiesCleared := true }
    | some (.accessPayload _ _ _) =>
      { result := .error (.unauthorized "Invalid refresh token"), db := db,
        cookiesCleared := true }
    | some (.refreshPayload sub jti) =>
      if sub = "" ∨ jti = "" then
        { result := .error (.unauthorized "Invalid refresh token"), db := db,
          cookiesCleared := true }
      else
        match getUserById db sub with
        | none =>
          { result := .error (.unauthorized "User not found"),
            db := revokeRefreshTokenFamily db jti now, cookiesCleared := true }
        | some u =>
          match getRefreshTokenByJti db jti with
          | none =>
            { result := .error (.unauthorized "Refresh token revoked or invalid"),
              db := revokeAllUserRefreshTokens db u.id now, cookiesCleared := true }
          | some r =>
          if r.revokedAt ≠ none ∨ r.tokenHash ≠ hashJwt token ∨ r.expiresAt < now then
            { result := .error (.unauthorized "Refresh token revoked or invalid"),
              db := revokeAllUserRefreshTokens db u.id now, cookiesCleared := true }
          else
            let refresh := signRefreshToken cfg u.id newJti now
            let nr := newRefreshTokenRec cfg newRtId newJti u.id refresh now
            let rotated := (db.refreshTokens ++ [nr]).map (fun r =>
              if r.jti = jti then
                { r with revokedAt := some now, replacedById := some newRtId }
              else r)
            { result := .ok { access_token := signAccessToken cfg u now,
                              refresh_token := refresh,
                              user := { id := u.id, email := u.email, role := u.role } },
              db := { db with refreshTokens := rotated },
              cookiesCleared := false }

/-- Outcome of `validateFromCookies`. -/
structure ValidateOutcome where
  result : Except AuthError PublicUser
  db : Db
  cookiesCleared : Bool
deriving Repr

/-- Model of `validateFromCookies`: read-only; every failure clears the cookies
(the `Unauthorized` thrown inside the `try` is caught and re-thrown as
the expiry error). -/
def validateFromCookies (db : Db) (cookie : Option Jwt) (now : Int) :
    ValidateOutcome :=
  match cookie with
  | none => { result := .error (.unauthorized "No access token"), db := db, cookiesCleared := true }
  | some j =>
    match jwtVerify now j with
    | none => { result := .error (.unauthorized "Access token expired"), db := db, cookiesCleared := true }
    | some (.refreshPayload _ _) =>
      { result := .error (.unauthorized "Access token expired"), db := db, cookiesCleared := true }
    | some (.accessPayload _ sub _) =>
      match getUserById db sub with
      | none => { result := .error (.unauthorized "Access token expired"), db := db, cookiesCleared := true }
      | some u =>
        { result := .ok { id := u.id, email := u.email, role := u.role },
          db := db, cookiesCleared := false }

/-- Model of `logoutFromCookies`: best-effort decode of the refresh cookie; on a
recoverable sub, revoke all that user's refresh tokens; always clear
the cookies and succeed. -/
def logoutFromCookies (db : Db) (cookie : Option Jwt) (now : Int) : Db :=
  match cookie with
  | none => db
  | some j =>
    match jwtDecode j with
    | some (.refreshPayload sub _) =>
      if sub = "" then db else revokeAllUserRefreshTokens db sub now
    | some (.accessPayload _ sub _) =>
      if sub = "" then db else revokeAllUserRefreshTokens db sub now
    | none => db

/-- One invocation of a public operation of the auth service, with the
nondeterministic inputs (fresh ids, jtis, raw secrets) reified as
constructor arguments. -/
inductive AuthOp where
  | registerOp (email pw newUserId newTokId raw : String)
  | registerAdminOp (email pw newUserId newRtId newJti : String)
  | loginOp (email pw newRtId newJti : String)
  | verifyEmailOp (token : String)
  | resendVerificationOp (email newTokId raw : String)
  | forgotPasswordOp (email newTokId raw : String)
  | resetPasswordOp (token newPassword : String)
  | changePasswordOp (userId currentPassword newPassword : String)
  | refreshOp (cookie : Option Jwt) (newRtId newJti : String)
  | validateOp (cookie : Option Jwt)
  | logoutOp (cookie : Option Jwt)

/-- Database state after one operation of the auth service (results
discarded). -/
def runOp (cfg : Config) (db : Db) (now : Int) : AuthOp → Db
  | .registerOp email pw newUserId newTokId raw =>
    (register cfg db email pw now newUserId newTokId raw).2
  | .registerAdminOp email pw newUserId newRtId newJti =>
    (registerAdmin cfg db email pw now newUserId newRtId newJti).2
  | .loginOp email pw newRtId newJti =>
    (login cfg db email pw now newRtId newJti).db
  | .verifyEmailOp token => (verifyEmail db token now).2
  | .resendVerificationOp email newTokId raw =>
    (resendVerification cfg db email now newTokId raw).2
  | .forgotPasswordOp email newTokId raw =>
    (forgotPassword cfg db email now newTokId raw).2
  | .resetPasswordOp token newPassword => (resetPassword db token newPassword now).2
  | .changePasswordOp userId currentPassword newPassword =>
    (changePassword db userId currentPassword newPassword now).2
  | .refreshOp cookie newRtId newJti =>
    (refreshFromCookies cfg db cookie now newRtId newJti).db
  | .validateOp cookie => (validateFromCookies db cookie now).db
  | .logoutOp cookie => logoutFromCookies db cookie now

/-! ### Shared list lemmas -/

theorem getD_map_lt {α : Type} (f : α → α) (l : List α) (i : Nat)
    (h : i < l.length) (d : α) : (l.map f).getD i d = f (l.getD i d) := by
  induction l generalizing i with
  | nil => simp at h
  | cons a l ih =>
    cases i with
    | zero => rfl
    | succ n =>
      simp only [List.map_cons, List.getD_cons_succ]
      exact ih n (by simpa using h)

theorem getD_append_lt {α : Type} (l l' : List α) (i : Nat)
    (h : i < l.length) (d : α) : (l ++ l').getD i d = l.getD i d := by
  induction l generalizing i with
  | nil => simp at h
  | cons a l ih =>
    cases i with
    | zero => rfl
    | succ n =>
      simp only [List.cons_append, List.getD_cons_succ]
      exact ih n (by simpa using h)

theorem find?_map_of_pred_invariant {α : Type} (f : α → α) (p : α → Bool)
    (l : List α) (hp : ∀ x, p (f x) = p x) :
    (l.map f).find? p = (l.find? p).map f := by
  induction l with
  | nil => rfl
  | cons a l ih =>
    simp only [List.map_cons, List.find?_cons]
    rw [hp a]
    cases h : p a with
    | false => simpa [h] using ih
    | true => simp [h]

theorem find?_append_left {α : Type} (l l' : List α) (p : α → Bool) (x : α)
    (h : l.find? p = some x) : (l ++ l').find? p = some x := by
  induction l with
  | nil => simp at h
  | cons a l ih =>
    simp only [List.cons_append, List.find?_cons] at h ⊢
    cases ha : p a with
    | true => simpa [ha] using h
    | false =>
      simp only [ha] at h ⊢
      exact ih h

theorem mem_map_of_mem_self {α : Type} (f : α → α) (l : List α) (x : α)
    (h : x ∈ l) : f x ∈ l.map f :=
  List.mem_map_of_mem f h

theorem find?_append_none_left {α : Type} (l l' : List α) (p : α → Bool)
    (h : l.find? p = none) : (l ++ l').find? p = l'.find? p := by
  induction l with
  | nil => rfl
  | cons a l ih =>
    simp only [List.cons_append, List.find?_cons] at h ⊢
    cases ha : p a with
    | true => simp [ha] at h
    | false =>
      simp only [ha] at h ⊢
      exact ih h

/-- All-default configuration, used to instantiate witnesses. -/
def cfg0 : Config :=
  { accessTokenExpiresIn := none, refreshTokenExpiresIn := none,
    emailVerificationExpiresIn := none, passwordResetExpiresIn := none,
    emailVerificationCooldownSeconds := none, emailVerificationDailyLimit := none,
    passwordResetCooldownSeconds := none, passwordResetDailyLimit := none }

/-! ### C7 — TTL parsing is total -/

/-- C7: `parseTTLToMs` is total: every string of the form
`<digits><s|m|h|d>` (case-insensitive) maps to the corresponding
duration in milliseconds (seconds, minutes, hours, days), and every
malformed input maps to `0` (session-scoped cookie); no input throws. -/
theorem parseTTLToMs_total (s : String) :
    (∀ ds u, s.toList = ds ++ [u] → ds ≠ [] → (∀ c ∈ ds, c.isDigit) → isUnitChar u →
      parseTTLToMs s =
        digitsToNat ds *
          (if u.toLower = 's' then 1000
           else if u.toLower = 'm' then 60000
           else if u.toLower = 'h' then 3600000
           else 86400000)) ∧
    ((¬ ∃ ds u, s.toList = ds ++ [u] ∧ ds ≠ [] ∧ (∀ c ∈ ds, c.isDigit) ∧ isUnitChar u) →
      parseTTLToMs s = 0) := by
  constructor
  · intro ds u hsu hne hdig hu
    unfold parseTTLToMs
    rw [hsu]
    simp only [List.getLast?_concat, List.dropLast_concat]
    rw [if_pos ⟨hne, hdig, hu⟩]
    split_ifs with h1 h2 h3 <;> simp_all [beq_iff_eq] <;> ring
  · intro hnex
    unfold parseTTLToMs
    cases hc : s.toList.getLast? with
    | none => simp only [hc]
    | some u =>
      have hne : s.toList ≠ [] := by
        intro h
        rw [h] at hc
        simp at hc
      have hu : s.toList.getLast hne = u := by
        have h2 := List.getLast?_eq_getLast s.toList hne
        rw [h2] at hc
        exact Option.some.inj hc
      have hdecomp : s.toList = s.toList.dropLast ++ [u] := by
        rw [← hu]
        exact (List.dropLast_append_getLast hne).symm
      have hcond : ¬ (s.toList.dropLast ≠ [] ∧ (∀ c ∈ s.toList.dropLast, c.isDigit = true) ∧
          isUnitChar u = true) := by
        rintro ⟨h1, h2, h3⟩
        exact hnex ⟨s.toList.dropLast, u, hdecomp, h1, h2, h3⟩
      simp only [hc]
      rw [if_neg hcond]

/-- Witness for C7 at the concrete inputs `"15m"` and `"7 days"`. -/
theorem parseTTLToMs_total_witness :
    parseTTLToMs "15m" = 900000 ∧ parseTTLToMs "7 days" = 0 := by
  constructor
  · have h := (parseTTLToMs_total "15m").1 ['1', '5'] 'm'
      (by decide) (by decide) (by decide) (by decide)
    rw [h]
    decide
  · apply (parseTTLToMs_total "7 days").2
    rintro ⟨ds, u, hsu, hne, hdig, hu⟩
    have hds : ds = ['7', ' ', 'd', 'a', 'y'] := by
      have h1 := congrArg List.dropLast hsu
      rw [List.dropLast_concat] at h1
      have h2 : ("7 days".toList).dropLast = ['7', ' ', 'd', 'a', 'y'] := by decide
      rw [h2] at h1
      exact h1.symm
    have hmem : (' ' : Char) ∈ ds := by
      rw [hds]
      decide
    exact absurd (hdig ' ' hmem) (by decide)

/-! ### C4 — default cookie options -/

/-- Production environment with no cookie overrides. -/
def prodEnv : CookieEnv :=
  { nodeEnv := some "production", cookieSecure := none, cookieSameSite := none }

/-- C4 is false as stated: with `NODE_ENV=production` and no
`COOKIE_SAMESITE` override, `getCookieOptions` yields
`sameSite = "none"`, not the claimed default `"lax"` (the code defaults
to `"none"` whenever `secure` is on, which production forces). -/
theorem getCookieOptions_default_sameSite_counterexample :
    prodEnv.cookieSameSite = none ∧
    (getCookieOptions prodEnv).sameSite = "none" ∧
    ¬ (getCookieOptions prodEnv).sameSite = "lax" := by
  decide

/-- C4 (amended): when the `sameSite` attribute is not explicitly
overridden, the options computed for both the `access_token` and the
`refresh_token` cookie have `httpOnly` true, path `"/"`, `secure`
forced true in production, and `sameSite` equal to `"none"` when
`secure` is on and to `"lax"` otherwise. -/
theorem getCookieOptions_default_sameSite (env : CookieEnv) (cfg : Config)
    (hss : env.cookieSameSite = none ∨ env.cookieSameSite = some "") :
    ∀ c ∈ setAuthCookies env cfg,
      c.options.httpOnly = true ∧ c.options.path = "/" ∧
      (lowerStr (jsOr env.nodeEnv "") = "production" → c.options.secure = true) ∧
      c.options.sameSite = (if c.options.secure then "none" else "lax") := by
  intro c hc
  have hopts : c.options = getCookieOptions env := by
    simp only [setAuthCookies, List.mem_cons, List.mem_singleton] at hc
    rcases hc with h | h | h
    · rw [h]
    · rw [h]
    · cases h
  have hssj : jsOr env.cookieSameSite
      (if (lowerStr (jsOr env.cookieSecure "") == "true") ||
          (lowerStr (jsOr env.nodeEnv "") == "production") then "none" else "lax") =
      (if (lowerStr (jsOr env.cookieSecure "") == "true") ||
          (lowerStr (jsOr env.nodeEnv "") == "production") then "none" else "lax") := by
    rcases hss with h | h <;> rw [h] <;> simp [jsOr]
  rw [hopts]
  unfold getCookieOptions
  refine ⟨rfl, rfl, ?_, ?_⟩
  · intro hprod
    simp [hprod]
  · simp only
    rw [hssj]

/-- Witness for C4 (amended) at a concrete production environment. -/
theorem getCookieOptions_default_sameSite_witness :
    (getCookieOptions prodEnv).httpOnly = true ∧
    (getCookieOptions prodEnv).secure = true ∧
    (getCookieOptions prodEnv).sameSite = "none" := by
  have h := getCookieOptions_default_sameSite prodEnv cfg0 (Or.inl rfl)
    ⟨"access_token", getCookieOptions prodEnv, parseTTLToMs (accessTokenTTL cfg0)⟩
    (by simp [setAuthCookies])
  obtain ⟨h1, _, h3, h4⟩ := h
  have hsec : (getCookieOptions prodEnv).secure = true := h3 (by decide)
  refine ⟨h1, hsec, ?_⟩
  rw [h4, hsec]
  simp

/-! ### C3 — login failure cases -/

/-- The empty database. -/
def emptyDb : Db :=
  { users := [], refreshTokens := [], emailVerificationTokens := [],
    passwordResetTokens := [] }

/-- C3 is false as stated: when no user record matches the email,
`login` throws `Unauthorized` immediately and performs **zero** bcrypt
comparisons — there is no dummy constant-time compare against a stored
hash in the user-absent path. -/
theorem login_absent_user_no_compare_counterexample :
    getUserByEmail emptyDb "a@x.com" = none ∧
    (login cfg0 emptyDb "a@x.com" "pw" 0 "rt1" "j1").result =
      .error (.unauthorized "Invalid credentials") ∧
    (login cfg0 emptyDb "a@x.com" "pw" 0 "rt1" "j1").bcryptCompares = 0 :=
  ⟨rfl, rfl, rfl⟩

/-- C3 (amended): `login` fails `Unauthorized` if the user is absent,
the password mismatches, or `isEmailVerified` is false; but in the
user-absent case it fails immediately with no password comparison
performed at all. -/
theorem login_unauthorized_cases (cfg : Config) (db : Db) (email pw : String)
    (now : Int) (newRtId newJti : String) :
    (getUserByEmail db email = none →
      (login cfg db email pw now newRtId newJti).result =
        .error (.unauthorized "Invalid credentials") ∧
      (login cfg db email pw now newRtId newJti).bcryptCompares = 0 ∧
      (login cfg db email pw now newRtId newJti).db = db) ∧
    (∀ u, getUserByEmail db email = some u → bcryptCompare pw u.password = false →
      (login cfg db email pw now newRtId newJti).result =
        .error (.unauthorized "Invalid credentials")) ∧
    (∀ u, getUserByEmail db email = some u → u.isEmailVerified = false →
      ∃ msg, (login cfg db email pw now newRtId newJti).result =
        .error (.unauthorized msg)) := by
  refine ⟨?_, ?_, ?_⟩
  · intro h
    simp [login, h]
  · intro u hu hcmp
    simp [login, hu, hcmp]
  · intro u hu hver
    by_cases hcmp : bcryptCompare pw u.password = false
    · exact ⟨"Invalid credentials", by simp [login, hu, hcmp]⟩
    · exact ⟨"Email not verified", by simp [login, hu, hcmp, hver]⟩

/-- Fixed unverified user for witnesses. -/
def uUnverified : UserRec :=
  { id := "u1", email := "a@x.com", password := BHash.bcrypt "pw" 10,
    role := .USER, isEmailVerified := false, createdAt := 0 }

/-- Database holding only `uUnverified`. -/
def dbUnverified : Db :=
  { users := [uUnverified], refreshTokens := [], emailVerificationTokens := [],
    passwordResetTokens := [] }

/-- Witness for C3 (amended): the user-absent case on the empty
database and the unverified-email case on `dbUnverified`. -/
theorem login_unauthorized_cases_witness :
    ((login cfg0 emptyDb "a@x.com" "pw" 0 "rt1" "j1").bcryptCompares = 0) ∧
    ∃ msg, (login cfg0 dbUnverified "a@x.com" "pw" 0 "rt1" "j1").result =
      .error (.unauthorized msg) :=
  ⟨((login_unauthorized_cases cfg0 emptyDb "a@x.com" "pw" 0 "rt1" "j1").1 rfl).2.1,
   (login_unauthorized_cases cfg0 dbUnverified "a@x.com" "pw" 0 "rt1" "j1").2.2
     uUnverified rfl rfl⟩

/-! ### C8 — invalidation of outstanding verification/reset tokens -/

/-- Default token record for positional (`getD`) statements. -/
def otpDefault : OtpTokenRec :=
  { id := "", userId := "", tokenHash := Digest.sha256 "", expiresAt := 0,
    usedAt := none, createdAt := 0 }

/-- An unused verification token that is already expired at time 100. -/
def evExpired : OtpTokenRec :=
  { id := "t1", userId := "u1", tokenHash := Digest.sha256 "old",
    expiresAt := 50, usedAt := none, createdAt := 0 }

/-- Database holding only `evExpired`. -/
def dbExpiredEv : Db :=
  { users := [], refreshTokens := [], emailVerificationTokens := [evExpired],
    passwordResetTokens := [] }

/-- C8 is false as stated: the invalidation update filters only on
`usedAt IS NULL`, not on expiry, so an **expired** unused prior token
of the user is also marked used — it is not left unchanged as "exactly
the unused, non-expired" would require. -/
theorem invalidateOutstanding_marks_expired_counterexample :
    evExpired.usedAt = none ∧ evExpired.expiresAt < 100 ∧
    ((issueAndSendEmailVerification cfg0 dbExpiredEv "u1" 100 "n1"
      "raw").emailVerificationTokens.getD 0 otpDefault).usedAt = some 100 :=
  ⟨rfl, by decide, rfl⟩

/-- C8 (amended): before a new verification (resp. reset) token is
issued, invalidation marks exactly the user's **unused** prior tokens
of that kind as used — regardless of expiry — and leaves tokens of the
other kind, tokens of other users, already-used tokens, and every
other table unchanged. -/
theorem invalidateOutstanding_spec (cfg : Config) (db : Db) (userId : String)
    (now : Int) (newId raw email : String) (u : UserRec) (i : Nat) :
    (let db1 := issueAndSendEmailVerification cfg db userId now newId raw
     db1.users = db.users ∧ db1.refreshTokens = db.refreshTokens ∧
     db1.passwordResetTokens = db.passwordResetTokens ∧
     (i < db.emailVerificationTokens.length →
       (let t := db.emailVerificationTokens.getD i otpDefault
        let t1 := db1.emailVerificationTokens.getD i otpDefault
        (t.userId = userId ∧ t.usedAt = none → t1 = { t with usedAt := some now }) ∧
        (¬ (t.userId = userId ∧ t.usedAt = none) → t1 = t)))) ∧
    (getUserByEmail db email = some u →
      enforcePasswordResetRateLimit cfg db u.id now = none →
      (let db2 := (forgotPassword cfg db email now newId raw).2
       db2.users = db.users ∧ db2.refreshTokens = db.refreshTokens ∧
       db2.emailVerificationTokens = db.emailVerificationTokens ∧
       (i < db.passwordResetTokens.length →
         (let t := db.passwordResetTokens.getD i otpDefault
          let t2 := db2.passwordResetTokens.getD i otpDefault
          (t.userId = u.id ∧ t.usedAt = none → t2 = { t with usedAt := some now }) ∧
          (¬ (t.userId = u.id ∧ t.usedAt = none) → t2 = t))))) := by
  constructor
  · refine ⟨rfl, rfl, rfl, ?_⟩
    intro hi
    have hmap : (issueAndSendEmailVerification cfg db userId now newId
        raw).emailVerificationTokens.getD i otpDefault =
        (fun t => if t.userId = userId ∧ t.usedAt = none then
          { t with usedAt := some now } else t)
          (db.emailVerificationTokens.getD i otpDefault) := by
      simp only [issueAndSendEmailVerification]
      rw [getD_append_lt _ _ _ (by simpa using hi), getD_map_lt _ _ _ hi]
    constructor
    · intro hcond
      rw [hmap]
      simp only [hcond, and_self, if_true]
    · intro hcond
      rw [hmap]
      simp only [if_neg hcond]
  · intro hu hrl
    have hdb2 : (forgotPassword cfg db email now newId raw).2 =
        { db with passwordResetTokens :=
            db.passwordResetTokens.map (fun t =>
              if t.userId = u.id ∧ t.usedAt = none then
                { t with usedAt := some now } else t) ++
            [{ id := newId, userId := u.id, tokenHash := hashToken raw,
               expiresAt := now + (parseTTLToMs (passwordResetTTL cfg) : Int),
               usedAt := none, createdAt := now }] } := by
      simp only [forgotPassword, hu, hrl]
    refine ⟨by rw [hdb2], by rw [hdb2], by rw [hdb2], ?_⟩
    intro hi
    have hmap : ((forgotPassword cfg db email now newId
        raw).2).passwordResetTokens.getD i otpDefault =
        (fun t => if t.userId = u.id ∧ t.usedAt = none then
          { t with usedAt := some now } else t)
          (db.passwordResetTokens.getD i otpDefault) := by
      rw [hdb2]
      simp only
      rw [getD_append_lt _ _ _ (by simpa using hi), getD_map_lt _ _ _ hi]
    constructor
    · intro hcond
      rw [hmap]
      simp only [hcond, and_self, if_true]
    · intro hcond
      rw [hmap]
      simp only [if_neg hcond]

/-- An unused, unexpired reset token of user `u1` at time 100. -/
def prOutstanding : OtpTokenRec :=
  { id := "p1", userId := "u1", tokenHash := Digest.sha256 "oldreset",
    expiresAt := 10000000, usedAt := none, createdAt := 0 }

/-- Database for the C8 witness: `uUnverified` plus one outstanding
reset token and one expired verification token. -/
def dbC8w : Db :=
  { users := [uUnverified], refreshTokens := [],
    emailVerificationTokens := [evExpired], passwordResetTokens := [prOutstanding] }

/-- Witness for C8 (amended) at a concrete database: the unused prior
verification token is marked used, and via `forgotPassword` the
outstanding reset token is marked used. -/
theorem invalidateOutstanding_spec_witness :
    ((issueAndSendEmailVerification cfg0 dbC8w "u1" 100 "n1"
      "raw").emailVerificationTokens.getD 0 otpDefault) =
      { evExpired with usedAt := some 100 } ∧
    (((forgotPassword cfg0 dbC8w "a@x.com" (100 * 86400000) "n2"
      "raw2").2).passwordResetTokens.getD 0 otpDefault) =
      { prOutstanding with usedAt := some (100 * 86400000) } := by
  constructor
  · exact ((invalidateOutstanding_spec cfg0 dbC8w "u1" 100 "n1" "raw" "a@x.com"
      uUnverified 0).1.2.2.2 (by decide)).1 ⟨rfl, rfl⟩
  · exact (((invalidateOutstanding_spec cfg0 dbC8w "u1" (100 * 86400000) "n2" "raw2"
      "a@x.com" uUnverified 0).2 rfl (by decide)).2.2.2 (by decide)).1 ⟨rfl, rfl⟩

/-! ### C2 — resetPassword -/

/-- C2: `resetPassword` fails `Unauthorized` whenever the looked-up
reset-token record is absent, already used, or past its expiry, and
then changes no state; on success (one transaction, one step of the
model) it stores the bcrypt hash of the new password on the owning
user, sets the reset token's `usedAt`, and sets `revokedAt` on all of
that user's unrevoked refresh tokens. -/
theorem resetPassword_spec (db : Db) (token newPw : String) (now : Int) :
    (∀ r, getPasswordResetTokenByHash db (hashToken token) = some r →
      r.usedAt = none → ¬ r.expiresAt < now →
      (resetPassword db token newPw now).1 = .ok () ∧
      (∀ u ∈ db.users, u.id = r.userId →
        { u with password := BHash.bcrypt newPw 10 } ∈
          ((resetPassword db token newPw now).2).users) ∧
      (∀ u ∈ db.users, u.id ≠ r.userId →
        u ∈ ((resetPassword db token newPw now).2).users) ∧
      (∀ t ∈ ((resetPassword db token newPw now).2).passwordResetTokens,
        t.tokenHash = hashToken token → t.usedAt = some now) ∧
      (∀ rt ∈ ((resetPassword db token newPw now).2).refreshTokens,
        rt.userId = r.userId → rt.revokedAt.isSome)) ∧
    (getPasswordResetTokenByHash db (hashToken token) = none →
      resetPassword db token newPw now =
        (.error (.unauthorized "Invalid or expired token"), db)) ∧
    (∀ r, getPasswordResetTokenByHash db (hashToken token) = some r →
      (r.usedAt ≠ none ∨ r.expiresAt < now) →
      resetPassword db token newPw now =
        (.error (.unauthorized "Invalid or expired token"), db)) := by
  refine ⟨?_, ?_, ?_⟩
  · intro r hr hused hexp
    have hcond : ¬ (r.usedAt ≠ none ∨ r.expiresAt < now) := by
      rintro (h1 | h2)
      · exact h1 hused
      · exact hexp h2
    have heq : resetPassword db token newPw now =
        (.ok (),
         { db with
           users := db.users.map (fun u =>
             if u.id = r.userId then
               { u with password := BHash.bcrypt newPw 10 } else u),
           passwordResetTokens := db.passwordResetTokens.map (fun t =>
             if t.tokenHash = hashToken token then { t with usedAt := some now } else t),
           refreshTokens := db.refreshTokens.map (fun rt =>
             if rt.userId = r.userId ∧ rt.revokedAt = none then
               { rt with revokedAt := some now } else rt) }) := by
      simp only [resetPassword, hr]
      rw [if_neg hcond]
    rw [heq]
    refine ⟨rfl, ?_, ?_, ?_, ?_⟩
    · intro u hu hid
      have hfu : (if u.id = r.userId then
          { u with password := BHash.bcrypt newPw 10 } else u) =
          { u with password := BHash.bcrypt newPw 10 } := if_pos hid
      rw [← hfu]
      exact mem_map_of_mem_self _ _ _ hu
    · intro u hu hid
      have hfu : (if u.id = r.userId then
          { u with password := BHash.bcrypt newPw 10 } else u) = u := if_neg hid
      rw [← hfu]
      exact mem_map_of_mem_self _ _ _ hu
    · intro t ht hhash
      obtain ⟨t0, ht0, hft⟩ := List.mem_map.1 ht
      by_cases hc : t0.tokenHash = hashToken token
      · rw [← hft]
        simp only [hc, if_true]
      · rw [← hft] at hhash
        rw [if_neg hc] at hhash
        exact absurd hhash hc
    · intro rt hrt hid
      obtain ⟨rt0, hrt0, hfrt⟩ := List.mem_map.1 hrt
      by_cases hc : rt0.userId = r.userId ∧ rt0.revokedAt = none
      · rw [← hfrt]
        simp only [hc, and_self, if_true, Option.isSome_some]
      · rw [← hfrt] at hid ⊢
        rw [if_neg hc] at hid ⊢
        have hrev : rt0.revokedAt ≠ none := by
          intro hnone
          exact hc ⟨hid, hnone⟩
        simpa [Option.isSome_iff_ne_none] using hrev
  · intro h
    simp only [resetPassword, h]
  · intro r hr hbad
    simp only [resetPassword, hr]
    rw [if_pos hbad]

/-- A valid outstanding reset token together with an active refresh
token for the same user, for the C2 witness. -/
def rtActiveU1 : RefreshTokenRec :=
  { id := "r1", jti := "j0", userId := "u1",
    tokenHash := Digest.sha256Jwt ⟨some (.refreshPayload "u1" "j0"), true, 1000⟩,
    expiresAt := 1000, revokedAt := none, replacedById := none, createdAt := 0 }

/-- Reset token of user `u1` whose digest is of the secret `"reset"`. -/
def prValid : OtpTokenRec :=
  { id := "p2", userId := "u1", tokenHash := Digest.sha256 "reset",
    expiresAt := 1000, usedAt := none, createdAt := 0 }

/-- Database for the C2 witness. -/
def dbC2w : Db :=
  { users := [uUnverified], refreshTokens := [rtActiveU1],
    emailVerificationTokens := [], passwordResetTokens := [prValid] }

/-- Witness for C2 at a concrete database: success result, the user's
password rehashed, the reset token consumed, the refresh token
revoked. -/
theorem resetPassword_spec_witness :
    (resetPassword dbC2w "reset" "npw" 100).1 = .ok () ∧
    { uUnverified with password := BHash.bcrypt "npw" 10 } ∈
      ((resetPassword dbC2w "reset" "npw" 100).2).users ∧
    (∀ t ∈ ((resetPassword dbC2w "reset" "npw" 100).2).passwordResetTokens,
      t.tokenHash = hashToken "reset" → t.usedAt = some 100) ∧
    (∀ rt ∈ ((resetPassword dbC2w "reset" "npw" 100).2).refreshTokens,
      rt.userId = "u1" → rt.revokedAt.isSome) := by
  have h := (resetPassword_spec dbC2w "reset" "npw" 100).1 prValid rfl rfl (by decide)
  obtain ⟨h1, h2, _, h4, h5⟩ := h
  refine ⟨h1, h2 uUnverified (by simp [dbC2w]) rfl, h4, ?_⟩
  intro rt hrt hid
  exact h5 rt hrt hid

/-! ### C6 — single-use round trip of verification/reset secrets -/

/-- Lookup of a freshly issued verification token: the new row wins. -/
theorem issue_lookup (cfg : Config) (db : Db) (userId : String) (now : Int)
    (newId raw : String)
    (hfresh : ∀ t ∈ db.emailVerificationTokens, t.tokenHash ≠ hashToken raw) :
    getEmailVerificationTokenByHash
      (issueAndSendEmailVerification cfg db userId now newId raw) (hashToken raw) =
      some { id := newId, userId := userId, tokenHash := hashToken raw,
             expiresAt := now + (parseTTLToMs (verificationTokenTTL cfg) : Int),
             usedAt := none, createdAt := now } := by
  unfold getEmailVerificationTokenByHash issueAndSendEmailVerification
  simp only
  rw [find?_append_none_left]
  · simp [List.find?_cons]
  · apply List.find?_eq_none.2
    intro x hx
    obtain ⟨t0, ht0, hft⟩ := List.mem_map.1 hx
    have hth : x.tokenHash = t0.tokenHash := by
      rw [← hft]
      by_cases hc : t0.userId = userId ∧ t0.usedAt = none
      · rw [if_pos hc]
      · rw [if_neg hc]
    simp only [beq_iff_eq, hth]
    exact hfresh t0 ht0

/-- Lookup of a freshly issued reset token (`forgotPassword` success
path): the new row wins. -/
theorem forgot_lookup (cfg : Config) (db : Db) (email : String) (now : Int)
    (ntid raw : String) (u : UserRec)
    (hu : getUserByEmail db email = some u)
    (hrl : enforcePasswordResetRateLimit cfg db u.id now = none)
    (hfresh : ∀ t ∈ db.passwordResetTokens, t.tokenHash ≠ hashToken raw) :
    getPasswordResetTokenByHash ((forgotPassword cfg db email now ntid raw).2)
      (hashToken raw) =
      some { id := ntid, userId := u.id, tokenHash := hashToken raw,
             expiresAt := now + (parseTTLToMs (passwordResetTTL cfg) : Int),
             usedAt := none, createdAt := now } := by
  simp only [forgotPassword, hu, hrl, getPasswordResetTokenByHash]
  rw [find?_append_none_left]
  · simp [List.find?_cons]
  · apply List.find?_eq_none.2
    intro x hx
    obtain ⟨t0, ht0, hft⟩ := List.mem_map.1 hx
    have hth : x.tokenHash = t0.tokenHash := by
      rw [← hft]
      by_cases hc : t0.userId = u.id ∧ t0.usedAt = none
      · rw [if_pos hc]
      · rw [if_neg hc]
    simp only [beq_iff_eq, hth]
    exact hfresh t0 ht0

/-- C6: an issued verification secret, consumed while unexpired,
succeeds — the owning user's `isEmailVerified` is set and the token's
`usedAt` is set in the same transaction; an issued reset secret,
consumed while unexpired, succeeds — the new password hash is stored
and the token's `usedAt` is set in the same transaction; consuming the
identical secret a second time fails with the invalid-or-expired error
for either kind; and a token of either kind whose `expiresAt` is in
the past always fails consumption regardless of its other fields. -/
theorem verificationToken_roundtrip (cfg : Config) (db : Db) (userId : String)
    (now now1 now2 now1R now2R : Int)
    (newId raw email ntidR rawR npw npw2 : String) (u : UserRec)
    (hfresh : ∀ t ∈ db.emailVerificationTokens, t.tokenHash ≠ hashToken raw)
    (hunexp : ¬ now + (parseTTLToMs (verificationTokenTTL cfg) : Int) < now1)
    (hu : getUserByEmail db email = some u)
    (hrl : enforcePasswordResetRateLimit cfg db u.id now = none)
    (hfreshR : ∀ t ∈ db.passwordResetTokens, t.tokenHash ≠ hashToken rawR)
    (hunexpR : ¬ now + (parseTTLToMs (passwordResetTTL cfg) : Int) < now1R) :
    ((verifyEmail (issueAndSendEmailVerification cfg db userId now newId raw)
        raw now1).1 = .ok ()) ∧
    (∀ u ∈ db.users, u.id = userId →
      { u with isEmailVerified := true } ∈
        (((verifyEmail (issueAndSendEmailVerification cfg db userId now newId raw)
          raw now1).2)).users) ∧
    (∀ t ∈ ((verifyEmail (issueAndSendEmailVerification cfg db userId now newId raw)
        raw now1).2).emailVerificationTokens,
      t.tokenHash = hashToken raw → t.usedAt = some now1) ∧
    (verifyEmail ((verifyEmail (issueAndSendEmailVerification cfg db userId now newId raw)
        raw now1).2) raw now2 =
      (.error (.unauthorized "Invalid or expired token"),
       (verifyEmail (issueAndSendEmailVerification cfg db userId now newId raw)
         raw now1).2)) ∧
    (∀ (db' : Db) (tok : String) (now' : Int) r,
      getEmailVerificationTokenByHash db' (hashToken tok) = some r →
      r.expiresAt < now' →
      (verifyEmail db' tok now').1 = .error (.unauthorized "Invalid or expired token")) ∧
    (∀ (db' : Db) (tok npw' : String) (now' : Int) r,
      getPasswordResetTokenByHash db' (hashToken tok) = some r →
      r.expiresAt < now' →
      (resetPassword db' tok npw' now').1 =
        .error (.unauthorized "Invalid or expired token")) ∧
    ((resetPassword ((forgotPassword cfg db email now ntidR rawR).2) rawR npw
        now1R).1 = .ok ()) ∧
    (∀ w ∈ db.users, w.id = u.id →
      { w with password := BHash.bcrypt npw 10 } ∈
        ((resetPassword ((forgotPassword cfg db email now ntidR rawR).2) rawR npw
          now1R).2).users) ∧
    (∀ t ∈ ((resetPassword ((forgotPassword cfg db email now ntidR rawR).2) rawR npw
        now1R).2).passwordResetTokens,
      t.tokenHash = hashToken rawR → t.usedAt = some now1R) ∧
    (resetPassword ((resetPassword ((forgotPassword cfg db email now ntidR rawR).2)
        rawR npw now1R).2) rawR npw2 now2R =
      (.error (.unauthorized "Invalid or expired token"),
       (resetPassword ((forgotPassword cfg db email now ntidR rawR).2) rawR npw
         now1R).2)) := by
  have hlook := issue_lookup cfg db userId now newId raw hfresh
  have hcond : ¬ (((none : Option Int) ≠ none) ∨
      now + (parseTTLToMs (verificationTokenTTL cfg) : Int) < now1) := by
    rintro (h1 | h2)
    · exact h1 rfl
    · exact hunexp h2
  have hstep1 : verifyEmail (issueAndSendEmailVerification cfg db userId now newId raw)
      raw now1 =
      (.ok (),
       { (issueAndSendEmailVerification cfg db userId now newId raw) with
         users := ((issueAndSendEmailVerification cfg db userId now newId raw)).users.map
           (fun u => if u.id = userId then { u with isEmailVerified := true } else u),
         emailVerificationTokens :=
           ((issueAndSendEmailVerification cfg db userId now newId
             raw)).emailVerificationTokens.map
             (fun t => if t.tokenHash = hashToken raw then
               { t with usedAt := some now1 } else t) }) := by
    simp only [verifyEmail, hlook]
    rw [if_neg hcond]
  have hlookR := forgot_lookup cfg db email now ntidR rawR u hu hrl hfreshR
  have hcondR : ¬ (((none : Option Int) ≠ none) ∨
      now + (parseTTLToMs (passwordResetTTL cfg) : Int) < now1R) := by
    rintro (h1 | h2)
    · exact h1 rfl
    · exact hunexpR h2
  have hstepR : resetPassword ((forgotPassword cfg db email now ntidR rawR).2)
      rawR npw now1R =
      (.ok (),
       { ((forgotPassword cfg db email now ntidR rawR).2) with
         users := (((forgotPassword cfg db email now ntidR rawR).2)).users.map
           (fun w => if w.id = u.id then
             { w with password := BHash.bcrypt npw 10 } else w),
         passwordResetTokens :=
           (((forgotPassword cfg db email now ntidR
             rawR).2)).passwordResetTokens.map
             (fun t => if t.tokenHash = hashToken rawR then
               { t with usedAt := some now1R } else t),
         refreshTokens :=
           (((forgotPassword cfg db email now ntidR rawR).2)).refreshTokens.map
             (fun rt => if rt.userId = u.id ∧ rt.revokedAt = none then
               { rt with revokedAt := some now1R } else rt) }) := by
    simp only [resetPassword, hlookR]
    rw [if_neg hcondR]
  have husersR : ((forgotPassword cfg db email now ntidR rawR).2).users =
      db.users := by
    simp only [forgotPassword, hu, hrl]
  refine ⟨by rw [hstep1], ?_, ?_, ?_, ?_, ?_, by rw [hstepR], ?_, ?_, ?_⟩
  · intro u hu hid
    rw [hstep1]
    have hu1 : u ∈ ((issueAndSendEmailVerification cfg db userId now newId raw)).users := by
      unfold issueAndSendEmailVerification
      simpa using hu
    have hfu : (if u.id = userId then { u with isEmailVerified := true } else u) =
        { u with isEmailVerified := true } := if_pos hid
    rw [← hfu]
    exact mem_map_of_mem_self _ _ _ hu1
  · intro t ht hhash
    rw [hstep1] at ht
    obtain ⟨t0, ht0, hft⟩ := List.mem_map.1 ht
    by_cases hc : t0.tokenHash = hashToken raw
    · rw [← hft]
      simp only [hc, if_true]
    · rw [← hft] at hhash
      rw [if_neg hc] at hhash
      exact absurd hhash hc
  · have hlook2 : getEmailVerificationTokenByHash
        ((verifyEmail (issueAndSendEmailVerification cfg db userId now newId raw)
          raw now1).2) (hashToken raw) =
        some { id := newId, userId := userId, tokenHash := hashToken raw,
               expiresAt := now + (parseTTLToMs (verificationTokenTTL cfg) : Int),
               usedAt := some now1, createdAt := now } := by
      rw [hstep1]
      unfold getEmailVerificationTokenByHash at hlook ⊢
      simp only
      rw [find?_map_of_pred_invariant]
      · rw [hlook]
        simp
      · intro x
        by_cases hc : x.tokenHash = hashToken raw
        · simp [hc]
        · simp [if_neg hc]
    have hgen : ∀ (db2 : Db),
        getEmailVerificationTokenByHash db2 (hashToken raw) =
          some { id := newId, userId := userId, tokenHash := hashToken raw,
                 expiresAt := now + (parseTTLToMs (verificationTokenTTL cfg) : Int),
                 usedAt := some now1, createdAt := now } →
        verifyEmail db2 raw now2 =
          (.error (.unauthorized "Invalid or expired token"), db2) := by
      intro db2 h2
      simp only [verifyEmail, h2]
      rw [if_pos (Or.inl (by simp))]
    exact hgen _ hlook2
  · intro db' tok now' r hr hexp
    simp only [verifyEmail, hr]
    rw [if_pos (Or.inr hexp)]
  · intro db' tok npw' now' r hr hexp
    simp only [resetPassword, hr]
    rw [if_pos (Or.inr hexp)]
  · intro w hw hid
    rw [hstepR]
    have hw1 : w ∈ ((forgotPassword cfg db email now ntidR rawR).2).users := by
      rw [husersR]
      exact hw
    have hfw : (if w.id = u.id then
        { w with password := BHash.bcrypt npw 10 } else w) =
        { w with password := BHash.bcrypt npw 10 } := if_pos hid
    rw [← hfw]
    exact mem_map_of_mem_self _ _ _ hw1
  · intro t ht hhash
    rw [hstepR] at ht
    obtain ⟨t0, ht0, hft⟩ := List.mem_map.1 ht
    by_cases hc : t0.tokenHash = hashToken rawR
    · rw [← hft]
      simp only [hc, if_true]
    · rw [← hft] at hhash
      rw [if_neg hc] at hhash
      exact absurd hhash hc
  · have hlook2R : getPasswordResetTokenByHash
        ((resetPassword ((forgotPassword cfg db email now ntidR rawR).2) rawR npw
          now1R).2) (hashToken rawR) =
        some { id := ntidR, userId := u.id, tokenHash := hashToken rawR,
               expiresAt := now + (parseTTLToMs (passwordResetTTL cfg) : Int),
               usedAt := some now1R, createdAt := now } := by
      rw [hstepR]
      unfold getPasswordResetTokenByHash at hlookR ⊢
      simp only
      rw [find?_map_of_pred_invariant]
      · rw [hlookR]
        simp
      · intro x
        by_cases hc : x.tokenHash = hashToken rawR
        · simp [hc]
        · simp [if_neg hc]
    have hgenR : ∀ (db2 : Db),
        getPasswordResetTokenByHash db2 (hashToken rawR) =
          some { id := ntidR, userId := u.id, tokenHash := hashToken rawR,
                 expiresAt := now + (parseTTLToMs (passwordResetTTL cfg) : Int),
                 usedAt := some now1R, createdAt := now } →
        resetPassword db2 rawR npw2 now2R =
          (.error (.unauthorized "Invalid or expired token"), db2) := by
      intro db2 h2
      simp only [resetPassword, h2]
      rw [if_pos (Or.inl (by simp))]
    exact hgenR _ hlook2R

/-- Witness for C6 on the concrete database `dbUnverified`: the
verification round trip with the secret `"secret"`, the reset round
trip with the secret `"rs"`, and the expiry part exercised on
`dbExpiredEv` (the claim theorem instantiated with every hypothesis
discharged at concrete values). -/
theorem verificationToken_roundtrip_witness :
    ((verifyEmail (issueAndSendEmailVerification cfg0 dbUnverified "u1" 0 "n1" "secret")
        "secret" 5).1 = .ok ()) ∧
    (verifyEmail ((verifyEmail
        (issueAndSendEmailVerification cfg0 dbUnverified "u1" 0 "n1" "secret")
        "secret" 5).2) "secret" 6).1 =
      .error (.unauthorized "Invalid or expired token") ∧
    ((resetPassword ((forgotPassword cfg0 dbUnverified "a@x.com" 0 "p9" "rs").2)
        "rs" "npw" 5).1 = .ok ()) ∧
    (resetPassword ((resetPassword ((forgotPassword cfg0 dbUnverified "a@x.com" 0
        "p9" "rs").2) "rs" "npw" 5).2) "rs" "npw2" 6).1 =
      .error (.unauthorized "Invalid or expired token") ∧
    (verifyEmail dbExpiredEv "old" 100).1 =
      .error (.unauthorized "Invalid or expired token") := by
  have h := verificationToken_roundtrip cfg0 dbUnverified "u1" 0 5 6 5 6
    "n1" "secret" "a@x.com" "p9" "rs" "npw" "npw2" uUnverified
    (by intro t ht; simp [dbUnverified] at ht) (by decide) rfl rfl
    (by intro t ht; simp [dbUnverified] at ht) (by decide)
  refine ⟨h.1, ?_, h.2.2.2.2.2.2.1, ?_, ?_⟩
  · rw [h.2.2.2.1]
  · rw [h.2.2.2.2.2.2.2.2.2]
  · exact h.2.2.2.2.1 dbExpiredEv "old" 100 evExpired rfl (by decide)

/-! ### C5 — refresh with a token failing verification -/

/-- After `revokeAllUserRefreshTokens`, every refresh token of the
user carries a revocation timestamp. -/
theorem revokeAll_revokes (db : Db) (userId : String) (now : Int) :
    ∀ rt ∈ (revokeAllUserRefreshTokens db userId now).refreshTokens,
      rt.userId = userId → rt.revokedAt.isSome := by
  intro rt hrt hid
  unfold revokeAllUserRefreshTokens at hrt
  simp only at hrt
  obtain ⟨rt0, hrt0, hf⟩ := List.mem_map.1 hrt
  by_cases hc : rt0.userId = userId ∧ rt0.revokedAt = none
  · rw [← hf]
    simp [hc]
  · rw [← hf] at hid ⊢
    rw [if_neg hc] at hid ⊢
    have hne : rt0.revokedAt ≠ none := fun hn => hc ⟨hid, hn⟩
    simpa [Option.isSome_iff_ne_none] using hne

/-- C5: presenting a refresh token that fails signature/expiry
verification makes the operation fail `Unauthorized` and clear both
cookies; and when a (truthy) jti claim is structurally recoverable
from the unverified token and matches a persisted refresh-token
record, every refresh token of that record's owning user is revoked
before the failure surfaces. -/
theorem refresh_invalid_token_spec (cfg : Config) (db : Db) (j : Jwt) (now : Int)
    (newRtId newJti : String) (hv : jwtVerify now j = none) :
    ((refreshFromCookies cfg db (some j) now newRtId newJti).result =
      .error (.unauthorized "Invalid refresh token")) ∧
    ((refreshFromCookies cfg db (some j) now newRtId newJti).cookiesCleared = true) ∧
    (∀ sub jti r, jwtDecode j = some (.refreshPayload sub jti) → jti ≠ "" →
      getRefreshTokenByJti db jti = some r →
      ∀ rt ∈ ((refreshFromCookies cfg db (some j) now newRtId newJti).db).refreshTokens,
        rt.userId = r.userId → rt.revokedAt.isSome) := by
  refine ⟨?_, ?_, ?_⟩
  · simp only [refreshFromCookies, hv]
  · simp only [refreshFromCookies, hv]
  · intro sub jti r hdec hne hr
    have hdb : (refreshFromCookies cfg db (some j) now newRtId newJti).db =
        revokeAllUserRefreshTokens db r.userId now := by
      simp only [refreshFromCookies, hv, hdec]
      rw [if_neg hne]
      unfold revokeRefreshTokenFamily
      rw [hr]
    rw [hdb]
    exact revokeAll_revokes db r.userId now

/-- Default refresh-token record for positional statements. -/
def rtDefault : RefreshTokenRec :=
  { id := "", jti := "", userId := "", tokenHash := Digest.sha256 "",
    expiresAt := 0, revokedAt := none, replacedById := none, createdAt := 0 }

/-- A token whose signature does not verify but whose payload (and so
its jti `"j0"`) is still decodable. -/
def jForged : Jwt :=
  { payload := some (.refreshPayload "u1" "j0"), sigValid := false, expMs := 1000 }

/-- Database for the C5 witness: one active refresh token `"j0"`. -/
def dbC5w : Db :=
  { users := [], refreshTokens := [rtActiveU1], emailVerificationTokens := [],
    passwordResetTokens := [] }

/-- Witness for C5 at a concrete forged token over `dbC5w`. -/
theorem refresh_invalid_token_spec_witness :
    ((refreshFromCookies cfg0 dbC5w (some jForged) 0 "n1" "j9").result =
      .error (.unauthorized "Invalid refresh token")) ∧
    ((refreshFromCookies cfg0 dbC5w (some jForged) 0 "n1" "j9").cookiesCleared = true) ∧
    (((refreshFromCookies cfg0 dbC5w (some jForged) 0 "n1"
      "j9").db).refreshTokens.getD 0 rtDefault).revokedAt.isSome := by
  have h := refresh_invalid_token_spec cfg0 dbC5w jForged 0 "n1" "j9" rfl
  exact ⟨h.1, h.2.1,
    h.2.2 "u1" "j0" rtActiveU1 rfl (by decide) rfl _ (by decide) (by decide)⟩

/-! ### C9 — registerAdmin issues tokens but leaves the email gate shut -/

/-- C9: `registerAdmin` returns access and refresh tokens, yet creates
the user with `isEmailVerified = false` and issues no verification
token, so a subsequent `login` with the admin's correct credentials
fails `Unauthorized` ("Email not verified") — and succeeds once
`verifyEmail` has run on a separately issued verification token. -/
theorem registerAdmin_login_gate (cfg : Config) (db : Db) (email pw : String)
    (now now2 now3 now4 now5 : Int)
    (newUserId newRtId newJti rtId2 jti2 tokId raw rtId3 jti3 : String)
    (habs : getUserByEmail db email = none)
    (hfresh : ∀ t ∈ db.emailVerificationTokens, t.tokenHash ≠ hashToken raw)
    (hunexp : ¬ now3 + (parseTTLToMs (verificationTokenTTL cfg) : Int) < now4) :
    (∃ tks, (registerAdmin cfg db email pw now newUserId newRtId newJti).1 = .ok tks) ∧
    (((registerAdmin cfg db email pw now newUserId newRtId
      newJti).2).emailVerificationTokens = db.emailVerificationTokens) ∧
    ({ id := newUserId, email := email, password := BHash.bcrypt pw 10,
       role := Role.ADMIN, isEmailVerified := false, createdAt := now } ∈
      ((registerAdmin cfg db email pw now newUserId newRtId newJti).2).users) ∧
    ((login cfg ((registerAdmin cfg db email pw now newUserId newRtId newJti).2)
        email pw now2 rtId2 jti2).result = .error (.unauthorized "Email not verified")) ∧
    ((verifyEmail (issueAndSendEmailVerification cfg
        ((registerAdmin cfg db email pw now newUserId newRtId newJti).2)
        newUserId now3 tokId raw) raw now4).1 = .ok ()) ∧
    (∃ tks, (login cfg ((verifyEmail (issueAndSendEmailVerification cfg
        ((registerAdmin cfg db email pw now newUserId newRtId newJti).2)
        newUserId now3 tokId raw) raw now4).2) email pw now5 rtId3 jti3).result =
      .ok tks) := by
  have habs' : db.users.find? (fun u => u.email == email) = none := habs
  have hA : (registerAdmin cfg db email pw now newUserId newRtId newJti).2 =
      { db with
        users := db.users ++
          [{ id := newUserId, email := email, password := BHash.bcrypt pw 10,
             role := Role.ADMIN, isEmailVerified := false, createdAt := now }],
        refreshTokens := db.refreshTokens ++
          [newRefreshTokenRec cfg newRtId newJti newUserId
            (signRefreshToken cfg newUserId newJti now) now] } := by
    simp only [registerAdmin, habs]
  have hemailA : getUserByEmail
      ((registerAdmin cfg db email pw now newUserId newRtId newJti).2) email =
      some { id := newUserId, email := email, password := BHash.bcrypt pw 10,
             role := Role.ADMIN, isEmailVerified := false, createdAt := now } := by
    rw [hA]
    unfold getUserByEmail
    simp only
    rw [find?_append_none_left _ _ _ habs']
    simp [List.find?_cons]
  refine ⟨?_, ?_, ?_, ?_, ?_, ?_⟩
  · exact ⟨_, by simp only [registerAdmin, habs]; rfl⟩
  · rw [hA]
  · rw [hA]
    simp
  · simp [login, hemailA, bcryptCompare]
  · have hlookA := issue_lookup cfg
      ((registerAdmin cfg db email pw now newUserId newRtId newJti).2)
      newUserId now3 tokId raw (by rw [hA]; exact hfresh)
    have hcond : ¬ (((none : Option Int) ≠ none) ∨
        now3 + (parseTTLToMs (verificationTokenTTL cfg) : Int) < now4) := by
      rintro (h1 | h2)
      · exact h1 rfl
      · exact hunexp h2
    simp only [verifyEmail, hlookA]
    rw [if_neg hcond]
  · have hlookA := issue_lookup cfg
      ((registerAdmin cfg db email pw now newUserId newRtId newJti).2)
      newUserId now3 tokId raw (by rw [hA]; exact hfresh)
    have hcond : ¬ (((none : Option Int) ≠ none) ∨
        now3 + (parseTTLToMs (verificationTokenTTL cfg) : Int) < now4) := by
      rintro (h1 | h2)
      · exact h1 rfl
      · exact hunexp h2
    have hstep : verifyEmail (issueAndSendEmailVerification cfg
        ((registerAdmin cfg db email pw now newUserId newRtId newJti).2)
        newUserId now3 tokId raw) raw now4 =
        (.ok (),
         { (issueAndSendEmailVerification cfg
             ((registerAdmin cfg db email pw now newUserId newRtId newJti).2)
             newUserId now3 tokId raw) with
           users := ((issueAndSendEmailVerification cfg
             ((registerAdmin cfg db email pw now newUserId newRtId newJti).2)
             newUserId now3 tokId raw)).users.map
             (fun u => if u.id = newUserId then { u with isEmailVerified := true } else u),
           emailVerificationTokens := ((issueAndSendEmailVerification cfg
             ((registerAdmin cfg db email pw now newUserId newRtId newJti).2)
             newUserId now3 tokId raw)).emailVerificationTokens.map
             (fun t => if t.tokenHash = hashToken raw then
               { t with usedAt := some now4 } else t) }) := by
      simp only [verifyEmail, hlookA]
      rw [if_neg hcond]
    have husers : ((issueAndSendEmailVerification cfg
        ((registerAdmin cfg db email pw now newUserId newRtId newJti).2)
        newUserId now3 tokId raw)).users =
        ((registerAdmin cfg db email pw now newUserId newRtId newJti).2).users := by
      unfold issueAndSendEmailVerification
      simp only
    have hemailV : getUserByEmail ((verifyEmail (issueAndSendEmailVerification cfg
        ((registerAdmin cfg db email pw now newUserId newRtId newJti).2)
        newUserId now3 tokId raw) raw now4).2) email =
        some { id := newUserId, email := email, password := BHash.bcrypt pw 10,
               role := Role.ADMIN, isEmailVerified := true, createdAt := now } := by
      rw [hstep]
      unfold getUserByEmail
      simp only [husers]
      rw [find?_map_of_pred_invariant]
      · unfold getUserByEmail at hemailA
        rw [hemailA]
        simp
      · intro x
        by_cases hc : x.id = newUserId
        · simp [hc]
        · simp [if_neg hc]
    exact ⟨_, by simp [login, hemailV, bcryptCompare]; try rfl⟩

/-- Witness for C9 on the empty database with concrete credentials. -/
theorem registerAdmin_login_gate_witness :
    (∃ tks, (registerAdmin cfg0 emptyDb "adm@x.com" "pw" 0 "u9" "r9" "j9").1 = .ok tks) ∧
    ((login cfg0 ((registerAdmin cfg0 emptyDb "adm@x.com" "pw" 0 "u9" "r9" "j9").2)
        "adm@x.com" "pw" 1 "r8" "j8").result =
      .error (.unauthorized "Email not verified")) ∧
    (∃ tks, (login cfg0 ((verifyEmail (issueAndSendEmailVerification cfg0
        ((registerAdmin cfg0 emptyDb "adm@x.com" "pw" 0 "u9" "r9" "j9").2)
        "u9" 2 "t9" "raw9") "raw9" 3).2) "adm@x.com" "pw" 4 "r7" "j7").result =
      .ok tks) := by
  have h := registerAdmin_login_gate cfg0 emptyDb "adm@x.com" "pw" 0 1 2 3 4
    "u9" "r9" "j9" "r8" "j8" "t9" "raw9" "r7" "j7" rfl
    (by intro t ht; simp [emptyDb] at ht) (by decide)
  exact ⟨h.1, h.2.2.2.1, h.2.2.2.2.2⟩

/-! ### C1 — refresh rotation and reuse detection -/

/-- Success path of `refreshFromCookies`: with a verifiable refresh
cookie whose jti matches an active, hash-matching, unexpired record of
an existing user, the call rotates — it returns fresh tokens, inserts
the new row and marks the presented row revoked with `replacedById`
set. -/
theorem refresh_success (cfg : Config) (db : Db) (jwt0 : Jwt) (now : Int)
    (newRtId newJti sub jti : String) (u : UserRec) (rt0 : RefreshTokenRec)
    (hpv : jwt0.sigValid = true) (hexp0 : now < jwt0.expMs)
    (hpay : jwt0.payload = some (.refreshPayload sub jti))
    (hsub : sub ≠ "") (hjti : jti ≠ "")
    (huser : getUserById db sub = some u)
    (hrt : getRefreshTokenByJti db jti = some rt0)
    (hrev : rt0.revokedAt = none)
    (hhash : rt0.tokenHash = hashJwt jwt0)
    (hrtexp : ¬ rt0.expiresAt < now) :
    refreshFromCookies cfg db (some jwt0) now newRtId newJti =
      { result := .ok { access_token := signAccessToken cfg u now,
                        refresh_token := signRefreshToken cfg u.id newJti now,
                        user := { id := u.id, email := u.email, role := u.role } },
        db := { db with refreshTokens := (db.refreshTokens ++
                          [newRefreshTokenRec cfg newRtId newJti u.id
                            (signRefreshToken cfg u.id newJti now) now]).map
                          (fun r => if r.jti = jti then
                            { r with revokedAt := some now,
                                     replacedById := some newRtId }
                          else r) },
        cookiesCleared := false } := by
  have hv : jwtVerify now jwt0 = some (.refreshPayload sub jti) := by
    simp [jwtVerify, hpv, hexp0, hpay]
  have hcond1 : ¬ (sub = "" ∨ jti = "") := by
    rintro (h | h)
    · exact hsub h
    · exact hjti h
  have hcond2 : ¬ (rt0.revokedAt ≠ none ∨ rt0.tokenHash ≠ hashJwt jwt0 ∨
      rt0.expiresAt < now) := by
    rintro (h | h | h)
    · exact h hrev
    · exact h hhash
    · exact hrtexp h
  simp only [refreshFromCookies, hv]
  rw [if_neg hcond1]
  simp only [huser, hrt]
  rw [if_neg hcond2]

/-- C1: when `refresh(rt0)` succeeds and yields `rt1`, a subsequent
`refresh(rt0)` fails `Unauthorized`, and as part of that failure every
refresh token belonging to that user — the rotated `rt1`'s row
included, and any other previously valid token — carries a revocation
timestamp. -/
theorem refresh_reuse_revokes_all (cfg : Config) (db : Db) (jwt0 : Jwt)
    (now now1 : Int) (newRtId newJti newRtId2 newJti2 sub jti : String)
    (u : UserRec) (rt0 : RefreshTokenRec)
    (hpv : jwt0.sigValid = true) (hexp0 : now < jwt0.expMs)
    (hpay : jwt0.payload = some (.refreshPayload sub jti))
    (hsub : sub ≠ "") (hjti : jti ≠ "")
    (huser : getUserById db sub = some u)
    (hrt : getRefreshTokenByJti db jti = some rt0)
    (hrev : rt0.revokedAt = none)
    (hhash : rt0.tokenHash = hashJwt jwt0)
    (hrtexp : ¬ rt0.expiresAt < now)
    (hexp1 : now1 < jwt0.expMs) :
    (∃ tks, (refreshFromCookies cfg db (some jwt0) now newRtId newJti).result =
      .ok tks) ∧
    ((refreshFromCookies cfg
        ((refreshFromCookies cfg db (some jwt0) now newRtId newJti).db)
        (some jwt0) now1 newRtId2 newJti2).result =
      .error (.unauthorized "Refresh token revoked or invalid")) ∧
    (∀ rt ∈ ((refreshFromCookies cfg
        ((refreshFromCookies cfg db (some jwt0) now newRtId newJti).db)
        (some jwt0) now1 newRtId2 newJti2).db).refreshTokens,
      rt.userId = u.id → rt.revokedAt.isSome) ∧
    (∃ rt ∈ ((refreshFromCookies cfg
        ((refreshFromCookies cfg db (some jwt0) now newRtId newJti).db)
        (some jwt0) now1 newRtId2 newJti2).db).refreshTokens,
      rt.jti = newJti) := by
  have hstep1 := refresh_success cfg db jwt0 now newRtId newJti sub jti u rt0
    hpv hexp0 hpay hsub hjti huser hrt hrev hhash hrtexp
  have hrt' : db.refreshTokens.find? (fun r => r.jti == jti) = some rt0 := hrt
  have hjti0 : rt0.jti = jti := by
    have := List.find?_some hrt'
    simpa [beq_iff_eq] using this
  have hv1 : jwtVerify now1 jwt0 = some (.refreshPayload sub jti) := by
    simp [jwtVerify, hpv, hexp1, hpay]
  have hcond1 : ¬ (sub = "" ∨ jti = "") := by
    rintro (h | h)
    · exact hsub h
    · exact hjti h
  -- the rotated old record, as found in the database after step 1
  have hlook1 : getRefreshTokenByJti
      ((refreshFromCookies cfg db (some jwt0) now newRtId newJti).db) jti =
      some { rt0 with revokedAt := some now, replacedById := some newRtId } := by
    rw [hstep1]
    simp only [getRefreshTokenByJti]
    rw [find?_map_of_pred_invariant]
    · rw [find?_append_left _ _ _ _ hrt']
      simp only [Option.map_some']
      rw [if_pos hjti0]
    · intro x
      by_cases hc : x.jti = jti
      · simp [hc]
      · simp [if_neg hc]
  have huser1 : getUserById
      ((refreshFromCookies cfg db (some jwt0) now newRtId newJti).db) sub = some u := by
    rw [hstep1]
    exact huser
  have hstep2gen : ∀ (db1 : Db), getUserById db1 sub = some u →
      getRefreshTokenByJti db1 jti =
        some { rt0 with revokedAt := some now, replacedById := some newRtId } →
      refreshFromCookies cfg db1 (some jwt0) now1 newRtId2 newJti2 =
        { result := .error (.unauthorized "Refresh token revoked or invalid"),
          db := revokeAllUserRefreshTokens db1 u.id now1,
          cookiesCleared := true } := by
    intro db1 hu1 hl1
    simp only [refreshFromCookies, hv1]
    rw [if_neg hcond1]
    simp only [hu1, hl1]
    rw [if_pos (Or.inl (by simp))]
  have hstep2 := hstep2gen _ huser1 hlook1
  refine ⟨⟨_, by rw [hstep1]⟩, by rw [hstep2], ?_, ?_⟩
  · rw [hstep2]
    exact revokeAll_revokes _ u.id now1
  · rw [hstep2, hstep1]
    simp only [revokeAllUserRefreshTokens]
    have hnr : (newRefreshTokenRec cfg newRtId newJti u.id
        (signRefreshToken cfg u.id newJti now) now) ∈
        db.refreshTokens ++
          [newRefreshTokenRec cfg newRtId newJti u.id
            (signRefreshToken cfg u.id newJti now) now] := by
      simp
    have hjf : ∀ x : RefreshTokenRec,
        ((fun r => if r.jti = jti then
          { r with revokedAt := some now, replacedById := some newRtId }
        else r) x).jti = x.jti := by
      intro x
      by_cases hc : x.jti = jti
      · simp [hc]
      · simp [if_neg hc]
    have hjg : ∀ x : RefreshTokenRec,
        ((fun r => if r.userId = u.id ∧ r.revokedAt = none then
          { r with revokedAt := some now1 } else r) x).jti = x.jti := by
      intro x
      by_cases hc : x.userId = u.id ∧ x.revokedAt = none
      · simp [hc]
      · simp [if_neg hc]
    refine ⟨_, List.mem_map_of_mem _ (List.mem_map_of_mem _ hnr), ?_⟩
    rw [hjg, hjf]
    rfl

/-- The signed refresh token whose record is `rtActiveU1`. -/
def jValid : Jwt :=
  { payload := some (.refreshPayload "u1" "j0"), sigValid := true, expMs := 1000 }

/-- Database for the C1 witness: one user, one active refresh token. -/
def dbC1w : Db :=
  { users := [uUnverified], refreshTokens := [rtActiveU1],
    emailVerificationTokens := [], passwordResetTokens := [] }

/-- Witness for C1 at a concrete database: the first refresh succeeds,
replaying the same cookie fails, and both persisted refresh rows (the
original and the rotated-in `rt1`) end up revoked. -/
theorem refresh_reuse_revokes_all_witness :
    (∃ tks, (refreshFromCookies cfg0 dbC1w (some jValid) 0 "r2" "j1").result =
      .ok tks) ∧
    ((refreshFromCookies cfg0 ((refreshFromCookies cfg0 dbC1w (some jValid) 0
        "r2" "j1").db) (some jValid) 1 "r3" "j2").result =
      .error (.unauthorized "Refresh token revoked or invalid")) ∧
    (((refreshFromCookies cfg0 ((refreshFromCookies cfg0 dbC1w (some jValid) 0
        "r2" "j1").db) (some jValid) 1 "r3"
        "j2").db).refreshTokens.getD 0 rtDefault).revokedAt.isSome ∧
    (((refreshFromCookies cfg0 ((refreshFromCookies cfg0 dbC1w (some jValid) 0
        "r2" "j1").db) (some jValid) 1 "r3"
        "j2").db).refreshTokens.getD 1 rtDefault).revokedAt.isSome := by
  have h := refresh_reuse_revokes_all cfg0 dbC1w jValid 0 1 "r2" "j1" "r3" "j2"
    "u1" "j0" uUnverified rtActiveU1 rfl (by decide) rfl (by decide) (by decide)
    rfl rfl rfl rfl (by decide) (by decide)
  exact ⟨h.1, h.2.1, h.2.2.1 _ (by decide) (by decide),
    h.2.2.1 _ (by decide) (by decide)⟩

/-! ### C10 — terminal markers are monotone under every operation -/

/-- Default user record with the marker cleared. -/
def userDefault : UserRec :=
  { id := "", email := "", password := BHash.bcrypt "" 10, role := .USER,
    isEmailVerified := false, createdAt := 0 }

/-- Monotonicity of the terminal markers between two database states:
whatever row (by position) had `isEmailVerified` true, a set
`revokedAt`, or a set `usedAt`, still has it. -/
def MarkersMono (db db1 : Db) : Prop :=
  (∀ i, i < db.users.length → (db.users.getD i userDefault).isEmailVerified = true →
    (db1.users.getD i userDefault).isEmailVerified = true) ∧
  (∀ i, i < db.refreshTokens.length →
    ((db.refreshTokens.getD i rtDefault).revokedAt).isSome →
    ((db1.refreshTokens.getD i rtDefault).revokedAt).isSome) ∧
  (∀ i, i < db.emailVerificationTokens.length →
    ((db.emailVerificationTokens.getD i otpDefault).usedAt).isSome →
    ((db1.emailVerificationTokens.getD i otpDefault).usedAt).isSome) ∧
  (∀ i, i < db.passwordResetTokens.length →
    ((db.passwordResetTokens.getD i otpDefault).usedAt).isSome →
    ((db1.passwordResetTokens.getD i otpDefault).usedAt).isSome)

theorem markersMono_refl (db : Db) : MarkersMono db db :=
  ⟨fun _ _ hp => hp, fun _ _ hp => hp, fun _ _ hp => hp, fun _ _ hp => hp⟩

theorem getD_mono_append {α : Type} (l news : List α) (P : α → Prop) (d : α) :
    ∀ i, i < l.length → P (l.getD i d) → P ((l ++ news).getD i d) := by
  intro i hi hp
  rw [getD_append_lt _ _ _ hi]
  exact hp

theorem getD_mono_map {α : Type} (l : List α) (f : α → α) (P : α → Prop) (d : α)
    (hf : ∀ x, P x → P (f x)) :
    ∀ i, i < l.length → P (l.getD i d) → P ((l.map f).getD i d) := by
  intro i hi hp
  rw [getD_map_lt _ _ _ hi]
  exact hf _ hp

theorem getD_mono_map_append {α : Type} (l : List α) (f : α → α) (news : List α)
    (P : α → Prop) (d : α) (hf : ∀ x, P x → P (f x)) :
    ∀ i, i < l.length → P (l.getD i d) → P ((l.map f ++ news).getD i d) := by
  intro i hi hp
  rw [getD_append_lt _ _ _ (by simpa using hi), getD_map_lt _ _ _ hi]
  exact hf _ hp

theorem getD_mono_append_then_map {α : Type} (l news : List α) (f : α → α)
    (P : α → Prop) (d : α) (hf : ∀ x, P x → P (f x)) :
    ∀ i, i < l.length → P (l.getD i d) → P (((l ++ news).map f).getD i d) := by
  intro i hi hp
  have hlen : i < (l ++ news).length := by
    simp only [List.length_append]
    omega
  rw [getD_map_lt _ _ _ hlen, getD_append_lt _ _ _ hi]
  exact hf _ hp

/-- The revocation map of `revokeAllUserRefreshTokens` preserves a set
`revokedAt`. -/
theorem revoke_map_mono (userId : String) (now : Int) :
    ∀ x : RefreshTokenRec, (x.revokedAt).isSome →
      (((fun r => if r.userId = userId ∧ r.revokedAt = none then
        { r with revokedAt := some now } else r) x).revokedAt).isSome := by
  intro x hx
  by_cases hc : x.userId = userId ∧ x.revokedAt = none
  · simp [hc]
  · simp [if_neg hc, hx]

theorem mono_revokeAll (db : Db) (userId : String) (now : Int) :
    MarkersMono db (revokeAllUserRefreshTokens db userId now) := by
  refine ⟨fun _ _ hp => hp, ?_, fun _ _ hp => hp, fun _ _ hp => hp⟩
  exact getD_mono_map _ _ _ _ (revoke_map_mono userId now)

theorem mono_revokeFamily (db : Db) (jti : String) (now : Int) :
    MarkersMono db (revokeRefreshTokenFamily db jti now) := by
  unfold revokeRefreshTokenFamily
  cases h : getRefreshTokenByJti db jti with
  | none => exact markersMono_refl db
  | some r => exact mono_revokeAll db r.userId now

theorem mono_issueVerification (cfg : Config) (db : Db) (userId : String)
    (now : Int) (newId raw : String) :
    MarkersMono db (issueAndSendEmailVerification cfg db userId now newId raw) := by
  refine ⟨fun _ _ hp => hp, fun _ _ hp => hp, ?_, fun _ _ hp => hp⟩
  simp only [issueAndSendEmailVerification]
  exact getD_mono_map_append db.emailVerificationTokens
    (fun t => if t.userId = userId ∧ t.usedAt = none then
      { t with usedAt := some now } else t)
    _ (fun x => x.usedAt.isSome = true) otpDefault
    (fun x hx => by
      by_cases hc : x.userId = userId ∧ x.usedAt = none
      · simp [hc]
      · simp [if_neg hc, hx])

theorem mono_register (cfg : Config) (db : Db) (email pw : String) (now : Int)
    (nuid ntid raw : String) :
    MarkersMono db (register cfg db email pw now nuid ntid raw).2 := by
  cases hu : getUserByEmail db email with
  | some u =>
    simp only [register, hu]
    exact markersMono_refl db
  | none =>
    simp only [register, hu, issueAndSendEmailVerification]
    refine ⟨?_, fun _ _ hp => hp, ?_, fun _ _ hp => hp⟩
    · exact getD_mono_append db.users _ (fun x => x.isEmailVerified = true) userDefault
    · exact getD_mono_map_append db.emailVerificationTokens
        (fun t => if t.userId = nuid ∧ t.usedAt = none then
          { t with usedAt := some now } else t)
        _ (fun x => x.usedAt.isSome = true) otpDefault
        (fun x hx => by
          by_cases hc : x.userId = nuid ∧ x.usedAt = none
          · simp [hc]
          · simp [if_neg hc, hx])

theorem mono_registerAdmin (cfg : Config) (db : Db) (email pw : String)
    (now : Int) (nuid nrid njti : String) :
    MarkersMono db (registerAdmin cfg db email pw now nuid nrid njti).2 := by
  cases hu : getUserByEmail db email with
  | some u =>
    simp only [registerAdmin, hu]
    exact markersMono_refl db
  | none =>
    simp only [registerAdmin, hu]
    exact ⟨getD_mono_append db.users _ (fun x => x.isEmailVerified = true) userDefault,
           getD_mono_append db.refreshTokens _ (fun x => x.revokedAt.isSome = true) rtDefault,
           fun _ _ hp => hp, fun _ _ hp => hp⟩

theorem mono_login (cfg : Config) (db : Db) (email pw : String) (now : Int)
    (rid jti : String) :
    MarkersMono db (login cfg db email pw now rid jti).db := by
  cases hu : getUserByEmail db email with
  | none =>
    simp only [login, hu]
    exact markersMono_refl db
  | some u =>
    simp only [login, hu]
    by_cases h1 : bcryptCompare pw u.password = false
    · rw [if_pos h1]
      exact markersMono_refl db
    · rw [if_neg h1]
      by_cases h2 : u.isEmailVerified = false
      · rw [if_pos h2]
        exact markersMono_refl db
      · rw [if_neg h2]
        exact ⟨fun _ _ hp => hp,
               getD_mono_append db.refreshTokens _ (fun x => x.revokedAt.isSome = true) rtDefault,
               fun _ _ hp => hp, fun _ _ hp => hp⟩

theorem mono_verifyEmail (db : Db) (token : String) (now : Int) :
    MarkersMono db (verifyEmail db token now).2 := by
  cases h : getEmailVerificationTokenByHash db (hashToken token) with
  | none =>
    simp only [verifyEmail, h]
    exact markersMono_refl db
  | some r =>
    simp only [verifyEmail, h]
    by_cases hc : r.usedAt ≠ none ∨ r.expiresAt < now
    · rw [if_pos hc]
      exact markersMono_refl db
    · rw [if_neg hc]
      refine ⟨?_, fun _ _ hp => hp, ?_, fun _ _ hp => hp⟩
      · exact getD_mono_map db.users _ (fun x => x.isEmailVerified = true) userDefault
          (fun x hx => by
            by_cases hcc : x.id = r.userId
            · simp [hcc]
            · simp [if_neg hcc, hx])
      · exact getD_mono_map db.emailVerificationTokens _
          (fun x => x.usedAt.isSome = true) otpDefault
          (fun x hx => by
            by_cases hcc : x.tokenHash = hashToken token
            · simp [hcc]
            · simp [if_neg hcc, hx])

theorem mono_resendVerification (cfg : Config) (db : Db) (email : String)
    (now : Int) (ntid raw : String) :
    MarkersMono db (resendVerification cfg db email now ntid raw).2 := by
  cases hu : getUserByEmail db email with
  | none =>
    simp only [resendVerification, hu]
    exact markersMono_refl db
  | some u =>
    simp only [resendVerification, hu]
    by_cases hv : u.isEmailVerified
    · rw [if_pos hv]
      exact markersMono_refl db
    · rw [if_neg hv]
      cases hr : enforceVerificationRateLimit cfg db u.id now with
      | some e =>
        simp only [hr]
        exact markersMono_refl db
      | none =>
        simp only [hr]
        exact mono_issueVerification cfg db u.id now ntid raw

theorem mono_forgotPassword (cfg : Config) (db : Db) (email : String)
    (now : Int) (ntid raw : String) :
    MarkersMono db (forgotPassword cfg db email now ntid raw).2 := by
  cases hu : getUserByEmail db email with
  | none =>
    simp only [forgotPassword, hu]
    exact markersMono_refl db
  | some u =>
    simp only [forgotPassword, hu]
    cases hr : enforcePasswordResetRateLimit cfg db u.id now with
    | some e =>
      simp only [hr]
      exact markersMono_refl db
    | none =>
      simp only [hr]
      refine ⟨fun _ _ hp => hp, fun _ _ hp => hp, fun _ _ hp => hp, ?_⟩
      exact getD_mono_map_append db.passwordResetTokens
        (fun t => if t.userId = u.id ∧ t.usedAt = none then
          { t with usedAt := some now } else t)
        _ (fun x => x.usedAt.isSome = true) otpDefault
        (fun x hx => by
          by_cases hc : x.userId = u.id ∧ x.usedAt = none
          · simp [hc]
          · simp [if_neg hc, hx])

theorem mono_resetPassword (db : Db) (token npw : String) (now : Int) :
    MarkersMono db (resetPassword db token npw now).2 := by
  cases h : getPasswordResetTokenByHash db (hashToken token) with
  | none =>
    simp only [resetPassword, h]
    exact markersMono_refl db
  | some r =>
    simp only [resetPassword, h]
    by_cases hc : r.usedAt ≠ none ∨ r.expiresAt < now
    · rw [if_pos hc]
      exact markersMono_refl db
    · rw [if_neg hc]
      refine ⟨?_, ?_, fun _ _ hp => hp, ?_⟩
      · exact getD_mono_map db.users _ (fun x => x.isEmailVerified = true) userDefault
          (fun x hx => by
            by_cases hcc : x.id = r.userId
            · simp [hcc, hx]
            · simp [if_neg hcc, hx])
      · exact getD_mono_map db.refreshTokens _ (fun x => x.revokedAt.isSome = true)
          rtDefault (revoke_map_mono r.userId now)
      · exact getD_mono_map db.passwordResetTokens _ (fun x => x.usedAt.isSome = true)
          otpDefault
          (fun x hx => by
            by_cases hcc : x.tokenHash = hashToken token
            · simp [hcc]
            · simp [if_neg hcc, hx])

theorem mono_changePassword (db : Db) (uid cur npw : String) (now : Int) :
    MarkersMono db (changePassword db uid cur npw now).2 := by
  cases h : getUserById db uid with
  | none =>
    simp only [changePassword, h]
    exact markersMono_refl db
  | some u =>
    simp only [changePassword, h]
    by_cases hc : bcryptCompare cur u.password = false
    · rw [if_pos hc]
      exact markersMono_refl db
    · rw [if_neg hc]
      refine ⟨?_, ?_, fun _ _ hp => hp, fun _ _ hp => hp⟩
      · exact getD_mono_map db.users _ (fun x => x.isEmailVerified = true) userDefault
          (fun x hx => by
            by_cases hcc : x.id = uid
            · simp [hcc, hx]
            · simp [if_neg hcc, hx])
      · exact getD_mono_map db.refreshTokens _ (fun x => x.revokedAt.isSome = true)
          rtDefault (revoke_map_mono uid now)

theorem mono_refresh (cfg : Config) (db : Db) (cookie : Option Jwt) (now : Int)
    (rid njti : String) :
    MarkersMono db (refreshFromCookies cfg db cookie now rid njti).db := by
  cases cookie with
  | none => exact markersMono_refl db
  | some token =>
    cases hv : jwtVerify now token with
    | none =>
      simp only [refreshFromCookies, hv]
      cases hd : jwtDecode token with
      | none =>
        simp only [hd]
        exact markersMono_refl db
      | some p =>
        cases p with
        | accessPayload e s r =>
          simp only [hd]
          exact markersMono_refl db
        | refreshPayload s jti =>
          simp only [hd]
          by_cases hj : jti = ""
          · rw [if_pos hj]
            exact markersMono_refl db
          · rw [if_neg hj]
            exact mono_revokeFamily db jti now
    | some p =>
      cases p with
      | accessPayload e s r =>
        simp only [refreshFromCookies, hv]
        exact markersMono_refl db
      | refreshPayload sub jti =>
        simp only [refreshFromCookies, hv]
        by_cases hc1 : sub = "" ∨ jti = ""
        · rw [if_pos hc1]
          exact markersMono_refl db
        · rw [if_neg hc1]
          cases huu : getUserById db sub with
          | none =>
            simp only [huu]
            exact mono_revokeFamily db jti now
          | some u =>
            simp only [huu]
            cases hrr : getRefreshTokenByJti db jti with
            | none =>
              simp only [hrr]
              exact mono_revokeAll db u.id now
            | some r =>
              simp only [hrr]
              by_cases hc2 : r.revokedAt ≠ none ∨ r.tokenHash ≠ hashJwt token ∨
                  r.expiresAt < now
              · rw [if_pos hc2]
                exact mono_revokeAll db u.id now
              · rw [if_neg hc2]
                refine ⟨fun _ _ hp => hp, ?_, fun _ _ hp => hp, fun _ _ hp => hp⟩
                exact getD_mono_append_then_map db.refreshTokens _
                  (fun x => if x.jti = jti then
                    { x with revokedAt := some now, replacedById := some rid }
                  else x)
                  (fun x => x.revokedAt.isSome = true) rtDefault
                  (fun x hx => by
                    by_cases hcc : x.jti = jti
                    · simp [hcc]
                    · simp [if_neg hcc, hx])

theorem validate_db_eq (db : Db) (cookie : Option Jwt) (now : Int) :
    (validateFromCookies db cookie now).db = db := by
  cases cookie with
  | none => rfl
  | some j =>
    cases hv : jwtVerify now j with
    | none => simp only [validateFromCookies, hv]
    | some p =>
      cases p with
      | refreshPayload s t => simp only [validateFromCookies, hv]
      | accessPayload e s r =>
        simp only [validateFromCookies, hv]
        cases hu : getUserById db s with
        | none => simp only [hu]
        | some u => simp only [hu]

theorem mono_logout (db : Db) (cookie : Option Jwt) (now : Int) :
    MarkersMono db (logoutFromCookies db cookie now) := by
  cases cookie with
  | none => exact markersMono_refl db
  | some j =>
    cases hd : jwtDecode j with
    | none =>
      simp only [logoutFromCookies, hd]
      exact markersMono_refl db
    | some p =>
      cases p with
      | refreshPayload s t =>
        simp only [logoutFromCookies, hd]
        by_cases hs : s = ""
        · rw [if_pos hs]
          exact markersMono_refl db
        · rw [if_neg hs]
          exact mono_revokeAll db s now
      | accessPayload e s r =>
        simp only [logoutFromCookies, hd]
        by_cases hs : s = ""
        · rw [if_pos hs]
          exact markersMono_refl db
        · rw [if_neg hs]
          exact mono_revokeAll db s now

/-- C10: the terminal markers are monotone under every operation of
the auth service — once a refresh token's `revokedAt` is non-null, a
verification/reset token's `usedAt` is non-null, or a user's
`isEmailVerified` is true, no operation sets the field back to
null/false. -/
theorem authOps_markers_monotone (cfg : Config) (db : Db) (now : Int)
    (op : AuthOp) : MarkersMono db (runOp cfg db now op) := by
  cases op with
  | registerOp email pw a b c => exact mono_register cfg db email pw now a b c
  | registerAdminOp email pw a b c => exact mono_registerAdmin cfg db email pw now a b c
  | loginOp email pw a b => exact mono_login cfg db email pw now a b
  | verifyEmailOp token => exact mono_verifyEmail db token now
  | resendVerificationOp email a b => exact mono_resendVerification cfg db email now a b
  | forgotPasswordOp email a b => exact mono_forgotPassword cfg db email now a b
  | resetPasswordOp token npw => exact mono_resetPassword db token npw now
  | changePasswordOp uid cur npw => exact mono_changePassword db uid cur npw now
  | refreshOp cookie a b => exact mono_refresh cfg db cookie now a b
  | validateOp cookie =>
    rw [show runOp cfg db now (.validateOp cookie) =
      (validateFromCookies db cookie now).db from rfl, validate_db_eq]
    exact markersMono_refl db
  | logoutOp cookie => exact mono_logout db cookie now

/-- Refresh token of `u1` that is already revoked. -/
def rtRevokedU1 : RefreshTokenRec :=
  { rtActiveU1 with revokedAt := some (-1) }

/-- Database for the C10 witness: one already-revoked refresh token. -/
def dbC10w : Db :=
  { users := [], refreshTokens := [rtRevokedU1], emailVerificationTokens := [],
    passwordResetTokens := [] }

/-- Witness for C10: a `logout` presenting a decodable token for the
owner leaves the already-revoked row revoked. -/
theorem authOps_markers_monotone_witness :
    ((runOp cfg0 dbC10w 0 (.logoutOp (some jValid))).refreshTokens.getD 0
      rtDefault).revokedAt.isSome :=
  (authOps_markers_monotone cfg0 dbC10w 0 (.logoutOp (some jValid))).2.1 0
    (by decide) (by decide)

end KotobaMichi
